import Mathlib

/-!
Shallow embedding of the capture/annotate core of the realtime webcam
vision app (src/src/camera_app.py and src/camera_app.py), together with
spec-side reference definitions, and theorems settling the frozen claims.

Python floats are modelled as exact rationals (ℚ): every operation the
claims exercise (comparison, subtraction, floor division, modulus) agrees
with IEEE semantics on exactly representable inputs; decimal literals are
taken at face value.
-/

namespace VisionAI

/-! ### Python arithmetic primitives on ℚ -/

/-- Python `a % b` for floats: `a - b * floor(a / b)` (sign of `b`; only used with `b > 0`). -/
def pyMod (a b : ℚ) : ℚ := a - b * ⌊a / b⌋

/-- Python `a // b` for floats: floor division. -/
def pyFloorDiv (a b : ℚ) : ℚ := ⌊a / b⌋

/-- Python `int(x)`: truncation toward zero. -/
def pyInt (q : ℚ) : ℤ := if q < 0 then -⌊-q⌋ else ⌊q⌋

/-- Python `str.startswith(p)`: prefix test on the character list. -/
def pyStartsWith (s p : String) : Bool := p.data.isPrefixOf s.data

/-- Python `str.strip()`: drop whitespace from both ends (character-list based). -/
def pyStrip (s : String) : String :=
  String.mk (((s.data.dropWhile Char.isWhitespace).reverse.dropWhile Char.isWhitespace).reverse)

/-! ### Decimal rendering (Python `f"{n:0wd}"`) -/

/-- The character for a decimal digit `d < 10`. -/
def digitChar (d : ℕ) : Char := Char.ofNat (48 + d)

/-- Decimal digits of a natural number, most significant first; `fuel`-structural. -/
def natCharsAux : ℕ → ℕ → List Char
  | 0, _ => []
  | _ + 1, 0 => []
  | fuel + 1, n + 1 => natCharsAux fuel ((n + 1) / 10) ++ [digitChar ((n + 1) % 10)]

/-- Decimal representation of a natural number (`"0"` for zero). -/
def natChars (n : ℕ) : List Char := if n = 0 then ['0'] else natCharsAux n n

/-- Left zero-padding to total width `w`. -/
def padZeros (w : ℕ) (cs : List Char) : List Char := List.replicate (w - cs.length) '0' ++ cs

/-- Python `f"{n:0wd}"` for an integer: zeros go between the sign and the digits. -/
def intPadChars (w : ℕ) (n : ℤ) : List Char :=
  if n < 0 then '-' :: padZeros (w - 1) (natChars n.natAbs) else padZeros w (natChars n.toNat)

/-! ### CaptionGenerator (src/src/camera_app.py lines 405-486) -/

namespace CaptionGenerator

/-- Embedding of `CaptionGenerator.format_time_srt` (src/src/camera_app.py:405-427):
`hours = int(seconds // 3600)`, `minutes = int((seconds % 3600) // 60)`,
`secs = int(seconds % 60)`, `millis = int((seconds % 1) * 1000)`,
rendered as `HH:MM:SS,mmm` with 2/2/2/3-wide zero padding. -/
def format_time_srt (seconds : ℚ) : String :=
  let hours : ℤ := pyInt (pyFloorDiv seconds 3600)
  let minutes : ℤ := pyInt (pyFloorDiv (pyMod seconds 3600) 60)
  let secs : ℤ := pyInt (pyMod seconds 60)
  let millis : ℤ := pyInt (pyMod seconds 1 * 1000)
  String.mk (intPadChars 2 hours ++ ':' :: intPadChars 2 minutes ++ ':' :: intPadChars 2 secs
    ++ ',' :: intPadChars 3 millis)

end CaptionGenerator

/-- One subtitle interval: `{start, end, text}` as stored in
`state.webcam_captions` / `state.video_captions`. -/
structure Caption where
  start : ℚ
  «end» : ℚ
  text : String
deriving DecidableEq

namespace CaptionGenerator

/-- Lines built by the loop body of `generate_srt_content` (enumerate from `i`). -/
def srtLines : ℕ → List Caption → List String
  | _, [] => []
  | i, c :: rest =>
    toString i :: (format_time_srt c.start ++ " --> " ++ format_time_srt c.«end»)
      :: c.text :: "" :: srtLines (i + 1) rest

/-- Embedding of `CaptionGenerator.generate_srt_content` (src/src/camera_app.py:446-486):
index, `start --> end`, text, blank line per caption, joined with newlines. -/
def generate_srt_content (captions_list : List Caption) : String :=
  String.intercalate "\n" (srtLines 1 captions_list)

end CaptionGenerator

/-! ### Caption track state and the two `add_caption` implementations -/

/-- The per-track mutable state: the stored interval list
(`webcam_captions` / `video_captions`) and the boundary cursor
(`last_caption_time` / `video_last_caption_time`, `None` initially). -/
structure CaptionState where
  captions : List Caption
  last : Option ℚ
deriving DecidableEq

/-- A freshly reset track (`AppState.__init__`, `start_recording`, `load_file`). -/
def resetTrack : CaptionState := { captions := [], last := none }

/-- The interval-start candidate: Python
`last_caption_time if last_caption_time else current` — a truthiness test,
so `None` and `0.0` both fall back to the current clock value. -/
def startTime (last : Option ℚ) (current : ℚ) : ℚ :=
  match last with
  | none => current
  | some l => if l = 0 then current else l

namespace VideoPlayerManager

/-- Embedding of `VideoPlayerManager.add_caption` (src/src/camera_app.py:1072-1093);
`current_time` is the `local_video.currentTime` clock, passed explicitly. -/
def add_caption (text : String) (current_time : ℚ) (st : CaptionState) : CaptionState :=
  let start_time := startTime st.last current_time
  let end_time := current_time
  let captions :=
    if end_time > start_time ∧ text ≠ "" ∧ pyStartsWith text "Error" = false then
      st.captions ++ [⟨start_time, end_time, pyStrip text⟩]
    else st.captions
  { captions := captions, last := some current_time }

end VideoPlayerManager

namespace WebcamManager

/-- Embedding of `WebcamManager.add_caption` (src/src/camera_app.py:850-868);
`recording_start_time` and `now` (`performance.now()/1000`) are passed explicitly.
When recording has not started the method returns without touching the track. -/
def add_caption (recording_start_time : Option ℚ) (now : ℚ) (text : String)
    (st : CaptionState) : CaptionState :=
  match recording_start_time with
  | none => st
  | some t0 =>
    let elapsed := now - t0
    let start_time := startTime st.last elapsed
    let end_time := elapsed
    let captions :=
      if end_time > start_time ∧ text ≠ "" ∧ pyStartsWith text "Error" = false then
        st.captions ++ [⟨start_time, end_time, pyStrip text⟩]
      else st.captions
    { captions := captions, last := some elapsed }

end WebcamManager

/-- Fold a sequence of `(text, clock)` calls over the local-video track. -/
def applyVideoCalls (calls : List (String × ℚ)) (st : CaptionState) : CaptionState :=
  calls.foldl (fun s p => VideoPlayerManager.add_caption p.1 p.2 s) st

/-- Fold a sequence of `(text, now)` calls over the webcam track at a fixed
recording origin. -/
def applyWebcamCalls (recording_start_time : Option ℚ) (calls : List (String × ℚ))
    (st : CaptionState) : CaptionState :=
  calls.foldl (fun s p => WebcamManager.add_caption recording_start_time p.2 p.1 s) st

/-! ### Track properties named by the claims -/

/-- Every stored interval has `end > start`. -/
def intervalsPositive (l : List Caption) : Prop := ∀ c ∈ l, c.start < c.«end»

/-- Consecutive stored intervals never overlap: `end_i ≤ start_{i+1}`. -/
def intervalsNonOverlap (l : List Caption) : Prop :=
  List.Chain' (fun a b => a.«end» ≤ b.start) l

/-- Consecutive stored intervals are contiguous: `end_i = start_{i+1}` (the
claim's "no gaps and no overlaps"). -/
def intervalsContiguous (l : List Caption) : Prop :=
  List.Chain' (fun a b => a.«end» = b.start) l

/-- The inductive track invariant: positive intervals, non-overlapping, and
the boundary cursor (when set) dominates every stored end time. -/
def trackInv (st : CaptionState) : Prop :=
  intervalsPositive st.captions ∧ intervalsNonOverlap st.captions ∧
  match st.last with
  | none => st.captions = []
  | some b => ∀ c ∈ st.captions, c.«end» ≤ b

/-! ### Spec-side reference formatter and timestamp parsing -/

/-- The claim's reference formatter, verbatim: `hours = floor(s/3600)`,
`minutes = floor((s mod 3600)/60)`, `secs = floor(s mod 60)`,
`millis = round((s mod 1) * 1000)`, zero-padded and joined as `HH:MM:SS,mmm`. -/
def specFormatTimeSrtRound (s : ℚ) : String :=
  String.mk (intPadChars 2 ⌊s / 3600⌋ ++ ':' :: intPadChars 2 ⌊pyMod s 3600 / 60⌋
    ++ ':' :: intPadChars 2 ⌊pyMod s 60⌋ ++ ',' :: intPadChars 3 (round (pyMod s 1 * 1000)))

/-- The amended reference formatter: identical except that milliseconds are
truncated (`floor`) rather than rounded, as the code's `int()` does. -/
def specFormatTimeSrtFloor (s : ℚ) : String :=
  String.mk (intPadChars 2 ⌊s / 3600⌋ ++ ':' :: intPadChars 2 ⌊pyMod s 3600 / 60⌋
    ++ ':' :: intPadChars 2 ⌊pyMod s 60⌋ ++ ',' :: intPadChars 3 ⌊pyMod s 1 * 1000⌋)

/-- The numeric value of a decimal digit character, if it is one. -/
def charDigit (c : Char) : Option ℕ :=
  if decide ('0' ≤ c) && decide (c ≤ '9') then some (c.toNat - 48) else none

/-- Modelled from the spec: parse an `HH:MM:SS,mmm` character sequence back to
seconds (spec sections 6 and 8; the repository itself contains no parser, the
round-trip is stated as a testable property). Positional: two digits, colon,
two digits, colon, two digits, comma, three digits. -/
def parseChars : List Char → Option ℚ
  | [h1, h0, c1, m1, m0, c2, s1, s0, c3, d2, d1, d0] =>
    if c1 = ':' ∧ c2 = ':' ∧ c3 = ',' then
      match charDigit h1, charDigit h0, charDigit m1, charDigit m0, charDigit s1,
          charDigit s0, charDigit d2, charDigit d1, charDigit d0 with
      | some a1, some a0, some b1, some b0, some e1, some e0, some f2, some f1, some f0 =>
        some (((10 * a1 + a0 : ℕ) : ℚ) * 3600 + ((10 * b1 + b0 : ℕ) : ℚ) * 60
          + ((10 * e1 + e0 : ℕ) : ℚ) + ((100 * f2 + 10 * f1 + f0 : ℕ) : ℚ) / 1000)
      | _, _, _, _, _, _, _, _, _ => none
    else none
  | _ => none

/-- Modelled from the spec: the `HH:MM:SS,mmm` timestamp parser on strings. -/
def parseTimeSrt (s : String) : Option ℚ := parseChars s.data

/-! ### JSON values and the Python dynamic operations used by `send_request` -/

/-- A parsed JSON value (the result of `json.loads`). -/
inductive JValue
  | jNull
  | jBool (b : Bool)
  | jNum (q : ℚ)
  | jStr (s : String)
  | jArr (elems : List JValue)
  | jObj (fields : List (String × JValue))

/-- Substring scan used by Python `key in someString`. -/
def strContainsAux (needle : List Char) : List Char → Bool
  | [] => needle.isEmpty
  | c :: rest => needle.isPrefixOf (c :: rest) || strContainsAux needle rest

/-- Python `needle in hay` for strings: substring containment. -/
def strContains (hay needle : String) : Bool := strContainsAux needle.data hay.data

/-- Python `key in v` for a string key: dict key membership, list element
membership, string containment; `TypeError` otherwise. -/
def pyIn (key : String) : JValue → Except String Bool
  | JValue.jObj fields => Except.ok (fields.any (fun p => p.1 == key))
  | JValue.jArr elems =>
    Except.ok (elems.any (fun v => match v with | JValue.jStr s => s == key | _ => false))
  | JValue.jStr s => Except.ok (strContains s key)
  | _ => Except.error "argument of type is not iterable"

/-- Python `len(v)`; `TypeError` for unsized values. -/
def pyLen : JValue → Except String ℕ
  | JValue.jArr elems => Except.ok elems.length
  | JValue.jStr s => Except.ok s.length
  | JValue.jObj fields => Except.ok fields.length
  | _ => Except.error "object has no len()"

/-- A Python subscript: a string key or a numeric index. -/
inductive PyIdx
  | str (s : String)
  | nat (n : ℕ)

/-- Python `v[idx]`: dict lookup (`KeyError` when absent; our dicts have string
keys, so a numeric subscript is a `KeyError`), list/str indexing
(`IndexError` out of range), `TypeError` otherwise. -/
def pyGetItem : JValue → PyIdx → Except String JValue
  | JValue.jObj fields, PyIdx.str k =>
    match fields.find? (fun p => p.1 == k) with
    | some p => Except.ok p.2
    | none => Except.error ("KeyError: " ++ k)
  | JValue.jObj _, PyIdx.nat _ => Except.error "KeyError: 0"
  | JValue.jArr elems, PyIdx.nat i =>
    match elems[i]? with
    | some v => Except.ok v
    | none => Except.error "list index out of range"
  | JValue.jArr _, PyIdx.str _ => Except.error "list indices must be integers"
  | JValue.jStr s, PyIdx.nat i =>
    match s.data[i]? with
    | some c => Except.ok (JValue.jStr (String.mk [c]))
    | none => Except.error "string index out of range"
  | JValue.jStr _, PyIdx.str _ => Except.error "string indices must be integers"
  | _, _ => Except.error "object is not subscriptable"

/-! ### APIClient (src/src/camera_app.py lines 279-366) -/

/-- The HTTP request assembled for `fetch`. -/
structure HttpRequest where
  url : String
  method : String
  contentType : String
  body : JValue

/-- What a `fetch` can come back with: a raised network error, or a response
with a status code whose text body either fails `json.loads` (carrying the
exception message) or parses to a `JValue`. -/
inductive FetchOutcome
  | netError (e : String)
  | http (status : ℕ) (body : Except String JValue)

/-- The fetch response `ok` test: status in the 200-299 range. -/
def responseOk (status : ℕ) : Bool := decide (200 ≤ status) && decide (status < 300)

namespace APIClient

/-- The HTTP-error message built at src/src/camera_app.py:340-349. -/
def serverErrorMsg (status : ℕ) : String :=
  "Server error: " ++ toString status ++
    (if status = 404 then " - Endpoint not found."
     else if status = 500 then " - Server error."
     else if status = 400 ∨ status = 422 then " - Invalid request format."
     else "")

/-- Embedding of the response-validation lines of `APIClient.send_request`
(src/src/camera_app.py:351-362), still inside the `try`: `Except.error`
carries a raised exception's message, `Except.ok` a value returned directly
(which is the error string `"Error: Invalid response format"` when the
shape checks fail, or `data['choices'][0]['message']['content']`). -/
def responseContent (data : JValue) : Except String JValue :=
  match pyIn "choices" data with
  | Except.error e => Except.error e
  | Except.ok hasChoices =>
    if hasChoices = false then Except.ok (JValue.jStr "Error: Invalid response format")
    else
      match pyGetItem data (PyIdx.str "choices") with
      | Except.error e => Except.error e
      | Except.ok choices =>
        match pyLen choices with
        | Except.error e => Except.error e
        | Except.ok n =>
          if n = 0 then Except.ok (JValue.jStr "Error: Invalid response format")
          else
            match pyGetItem choices (PyIdx.nat 0) with
            | Except.error e => Except.error e
            | Except.ok c0 =>
              match pyIn "message" c0 with
              | Except.error e => Except.error e
              | Except.ok hasMessage =>
                if hasMessage = false then
                  Except.ok (JValue.jStr "Error: Invalid response format")
                else
                  match pyGetItem c0 (PyIdx.str "message") with
                  | Except.error e => Except.error e
                  | Except.ok msg => pyGetItem msg (PyIdx.str "content")

/-- Embedding of the response handling of `APIClient.send_request`
(src/src/camera_app.py:337-366): HTTP errors become `serverErrorMsg`,
the parsed body goes through `responseContent`, and any exception raised in
the `try` is converted by the `except` into `"Error: " + str(e)`. -/
def handleOutcome (o : FetchOutcome) : JValue :=
  match o with
  | FetchOutcome.netError e => JValue.jStr ("Error: " ++ e)
  | FetchOutcome.http status body =>
    if responseOk status = false then JValue.jStr (serverErrorMsg status)
    else
      match body with
      | Except.error e => JValue.jStr ("Error: " ++ e)
      | Except.ok data =>
        match responseContent data with
        | Except.ok v => v
        | Except.error e => JValue.jStr ("Error: " ++ e)

/-- Embedding of the request constructed by `APIClient.send_request`
(src/src/camera_app.py:310-334): POST to `base_url + "/v1/chat/completions"`
with the two-part OpenAI-Vision payload. -/
def requestOf (baseURL instruction image_base64_url : String) : HttpRequest :=
  { url := baseURL ++ "/v1/chat/completions"
    method := "POST"
    contentType := "application/json"
    body := JValue.jObj
      [("max_tokens", JValue.jNum 100),
       ("messages", JValue.jArr
         [JValue.jObj
           [("role", JValue.jStr "user"),
            ("content", JValue.jArr
              [JValue.jObj [("type", JValue.jStr "text"), ("text", JValue.jStr instruction)],
               JValue.jObj [("type", JValue.jStr "image_url"),
                 ("image_url", JValue.jObj [("url", JValue.jStr image_base64_url)])]])]])] }

/-- Embedding of `APIClient.send_request` (src/src/camera_app.py:279-366):
builds the request, performs the fetch (abstracted as an oracle argument),
and handles the outcome. -/
def send_request (baseURL instruction image_base64_url : String)
    (fetch : HttpRequest → FetchOutcome) : JValue :=
  handleOutcome (fetch (requestOf baseURL instruction image_base64_url))

end APIClient

/-! ### The root-level module (src/camera_app.py lines 37-94) -/

namespace CameraAppRoot

/-- The HTTP-error message built at src/camera_app.py:68-79. -/
def serverErrorMsg (status : ℕ) : String :=
  "Server error: " ++ toString status ++
    (if status = 404 then " - Endpoint not found. Make sure the server is running."
     else if status = 500 then " - Server error. Check if the model supports vision."
     else if status = 400 ∨ status = 422 then " - Invalid request format."
     else "")

/-- Embedding of the response-validation lines of
`send_chat_completion_request` (src/camera_app.py:84-90). -/
def responseContent (data : JValue) : Except String JValue :=
  match pyIn "choices" data with
  | Except.error e => Except.error e
  | Except.ok hasChoices =>
    if hasChoices = false then
      Except.ok (JValue.jStr "Error: Invalid response format from server")
    else
      match pyGetItem data (PyIdx.str "choices") with
      | Except.error e => Except.error e
      | Except.ok choices =>
        match pyLen choices with
        | Except.error e => Except.error e
        | Except.ok n =>
          if n = 0 then Except.ok (JValue.jStr "Error: Invalid response format from server")
          else
            match pyGetItem choices (PyIdx.nat 0) with
            | Except.error e => Except.error e
            | Except.ok c0 =>
              match pyIn "message" c0 with
              | Except.error e => Except.error e
              | Except.ok hasMessage =>
                if hasMessage = false then
                  Except.ok (JValue.jStr "Error: Invalid response format from server")
                else
                  match pyGetItem c0 (PyIdx.str "message") with
                  | Except.error e => Except.error e
                  | Except.ok msg => pyGetItem msg (PyIdx.str "content")

/-- Embedding of the response handling of `send_chat_completion_request`
(src/camera_app.py:66-94). -/
def handleOutcome (o : FetchOutcome) : JValue :=
  match o with
  | FetchOutcome.netError e => JValue.jStr ("Error: " ++ e)
  | FetchOutcome.http status body =>
    if responseOk status = false then JValue.jStr (serverErrorMsg status)
    else
      match body with
      | Except.error e => JValue.jStr ("Error: " ++ e)
      | Except.ok data =>
        match responseContent data with
        | Except.ok v => v
        | Except.error e => JValue.jStr ("Error: " ++ e)

/-- Embedding of the request constructed by `send_chat_completion_request`
(src/camera_app.py:40-64). -/
def requestOf (baseURL instruction image_base64_url : String) : HttpRequest :=
  { url := baseURL ++ "/v1/chat/completions"
    method := "POST"
    contentType := "application/json"
    body := JValue.jObj
      [("max_tokens", JValue.jNum 100),
       ("messages", JValue.jArr
         [JValue.jObj
           [("role", JValue.jStr "user"),
            ("content", JValue.jArr
              [JValue.jObj [("type", JValue.jStr "text"), ("text", JValue.jStr instruction)],
               JValue.jObj [("type", JValue.jStr "image_url"),
                 ("image_url", JValue.jObj [("url", JValue.jStr image_base64_url)])]])]])] }

/-- Embedding of `send_chat_completion_request` (src/camera_app.py:37-94). -/
def send_chat_completion_request (baseURL instruction image_base64_url : String)
    (fetch : HttpRequest → FetchOutcome) : JValue :=
  handleOutcome (fetch (requestOf baseURL instruction image_base64_url))

end CameraAppRoot

/-! ### Spec-side request shape and success condition (spec section 6) -/

/-- First-match field lookup on an object value. -/
def asObjGet (v : JValue) (k : String) : Option JValue :=
  match v with
  | JValue.jObj fields => (fields.find? (fun p => p.1 == k)).map Prod.snd
  | _ => none

/-- Element lookup on an array value. -/
def asArrGet (v : JValue) (i : ℕ) : Option JValue :=
  match v with
  | JValue.jArr elems => elems[i]?
  | _ => none

/-- The wire request exactly as section 6 of the spec words it:
`POST baseURL/v1/chat/completions` with JSON body
`max_tokens: 100, messages: [role user, content: [text part, image_url part]]`. -/
def specChatRequest (baseURL instruction dataURL : String) : HttpRequest :=
  { url := baseURL ++ "/v1/chat/completions"
    method := "POST"
    contentType := "application/json"
    body := JValue.jObj
      [("max_tokens", JValue.jNum 100),
       ("messages", JValue.jArr
         [JValue.jObj
           [("role", JValue.jStr "user"),
            ("content", JValue.jArr
              [JValue.jObj [("type", JValue.jStr "text"), ("text", JValue.jStr instruction)],
               JValue.jObj [("type", JValue.jStr "image_url"),
                 ("image_url", JValue.jObj [("url", JValue.jStr dataURL)])]])]])] }

/-- The success content `choices[0].message.content` of a parsed body, per the
spec: present only when every step of the path exists. -/
def specContent (data : JValue) : Option JValue :=
  (asObjGet data "choices").bind (fun cs => (asArrGet cs 0).bind
    (fun c0 => (asObjGet c0 "message").bind (fun m => asObjGet m "content")))

/-- The spec-side success value of a whole fetch outcome: a 2xx status whose
body parsed and contains `choices[0].message.content`. -/
def specSuccess (o : FetchOutcome) : Option JValue :=
  match o with
  | FetchOutcome.http status (Except.ok data) =>
    if responseOk status then specContent data else none
  | _ => none

/-- A displayable failure message: prefixed `"Error"` (exception and
shape-validation paths) or `"Server error:"` (HTTP status paths). -/
def isFailureMsg (m : String) : Prop :=
  pyStartsWith m "Error" = true ∨ pyStartsWith m "Server error:" = true

/-! ### SamplingLoop / SessionController model
(src/src/camera_app.py lines 1243-1308 and 1499-1635)

The app is a single cooperatively-scheduled asyncio task; awaited steps run to
completion in program order, so the loop is modelled by the ordered trace of
its per-tick events. DOM-only effects (button labels, CSS classes, control
enabling) are omitted; caption-track contents are modelled separately above
and appear here as `caption` events. -/

/-- The three tabs (`AppState.current_tab`). -/
inductive Tab
  | webcam
  | video
  | image
deriving DecidableEq

/-- The state fields of `AppState` (plus the pending-`resume` marker for the
`ensure_future(webcam.resume())` scheduled by a tab switch). -/
structure AppSt where
  current_tab : Tab
  is_processing : Bool
  has_task : Bool
  stream : Bool
  is_webcam_paused : Bool
  enable_recording : Bool
  recording_start_time : Option ℚ
  video_playing : Bool
  resume_scheduled : Bool
deriving DecidableEq

/-- Awaited/observable events of one tick of the processing loop. -/
inductive Ev
  | frameCaptured (k : ℕ)
  | send (k : ℕ)
  | display (k : ℕ)
  | caption (k : ℕ)
  | sleepDone (k : ℕ)
deriving DecidableEq

/-- Per-tick environment: whether the active element has decoded pixels
(`videoWidth != 0`). -/
structure TickEnv where
  frame_ready : Bool

namespace VisionApp

/-- Embedding of `VisionApp._send_data` (src/src/camera_app.py:1515-1540) as
the ordered event trace of tick `k`: early return when not processing;
capture by tab (the image tab never assigns a frame); on capture failure only
a display of the failure text; otherwise send, display, and — for the webcam
tab when recording is enabled and started, or always for the video tab — the
caption append. The state itself is not mutated by a tick. -/
def send_data (k : ℕ) (env : TickEnv) (st : AppSt) : List Ev :=
  if st.is_processing = false then []
  else
    let frame : Bool :=
      match st.current_tab with
      | Tab.webcam => st.stream && env.frame_ready
      | Tab.video => env.frame_ready
      | Tab.image => false
    if frame = false then [Ev.display k]
    else
      let evs := [Ev.frameCaptured k, Ev.send k, Ev.display k]
      match st.current_tab with
      | Tab.webcam =>
        if st.enable_recording && st.recording_start_time.isSome then evs ++ [Ev.caption k]
        else evs
      | Tab.video => evs ++ [Ev.caption k]
      | Tab.image => evs

/-- Embedding of `VisionApp._processing_loop` (src/src/camera_app.py:1542-1549):
`while is_processing: await _send_data(); await asyncio.sleep(interval)`,
unrolled for `fuel` iterations starting at tick `k`. -/
def processing_loop (env : ℕ → TickEnv) : ℕ → ℕ → AppSt → List Ev
  | 0, _, _ => []
  | fuel + 1, k, st =>
    if st.is_processing = false then []
    else send_data k (env k) st ++ Ev.sleepDone k :: processing_loop env fuel (k + 1) st

/-- Embedding of `VisionApp.handle_stop` (src/src/camera_app.py:1598-1628)
restricted to state fields: clears `is_processing`, cancels the task, stops
recording on the webcam tab (when enabled), pauses playback on the video tab. -/
def handle_stop (st : AppSt) : AppSt :=
  let st := { st with is_processing := false, has_task := false }
  match st.current_tab with
  | Tab.webcam =>
    if st.enable_recording then { st with recording_start_time := none } else st
  | Tab.video => { st with video_playing := false }
  | Tab.image => st

end VisionApp

namespace TabManager

/-- The tab-change portion of `TabManager.switch` after the stop step
(src/src/camera_app.py:1263-1308): no-op when the clicked tab is current;
pause the webcam when leaving the webcam tab with a live stream; set the new
tab; schedule `webcam.resume()` when entering the webcam tab without a stream. -/
def switchTabs (st : AppSt) (tab_name : Tab) : AppSt :=
  if tab_name = st.current_tab then st
  else
    let st :=
      if st.current_tab = Tab.webcam ∧ st.stream = true then
        { st with stream := false, is_webcam_paused := true }
      else st
    let st := { st with current_tab := tab_name }
    if tab_name = Tab.webcam ∧ st.stream = false then { st with resume_scheduled := true }
    else st

/-- Embedding of `TabManager.switch` (src/src/camera_app.py:1243-1308), with
the stop callback wired to `VisionApp.handle_stop` as `VisionApp.__init__`
does: stop first when processing, then perform the tab change. -/
def switch (st : AppSt) (tab_name : Tab) : AppSt :=
  switchTabs (if st.is_processing then VisionApp.handle_stop st else st) tab_name

end TabManager

/-- Phases of the one-in-flight scanning automaton over a loop trace. -/
inductive LoopPhase
  | idle
  | sent (k : ℕ)
  | displayed (k : ℕ)

/-- At most one inference call in flight, its tick's display before the next
send, and the sleep after the tick's work before the next send: a send is
legal only in `idle`; after `send k` only tick `k`'s display leaves the
in-flight phase; after that display a sleep must occur before the next send. -/
def traceOK : LoopPhase → List Ev → Prop
  | _, [] => True
  | LoopPhase.idle, e :: tr =>
    match e with
    | Ev.send k => traceOK (LoopPhase.sent k) tr
    | _ => traceOK LoopPhase.idle tr
  | LoopPhase.sent k, e :: tr =>
    match e with
    | Ev.display j => j = k ∧ traceOK (LoopPhase.displayed k) tr
    | Ev.send _ => False
    | Ev.sleepDone _ => False
    | _ => traceOK (LoopPhase.sent k) tr
  | LoopPhase.displayed k, e :: tr =>
    match e with
    | Ev.send _ => False
    | Ev.sleepDone _ => traceOK LoopPhase.idle tr
    | _ => traceOK (LoopPhase.displayed k) tr

/-! ## General lemmas -/

theorem pyInt_intCast (n : ℤ) : pyInt (n : ℚ) = n := by
  by_cases h : (n : ℚ) < 0
  · simp only [pyInt, if_pos h]
    rw [show -(n : ℚ) = ((-n : ℤ) : ℚ) by push_cast; ring, Int.floor_intCast]
    ring
  · simp only [pyInt, if_neg h, Int.floor_intCast]

theorem pyInt_of_nonneg (q : ℚ) (h : 0 ≤ q) : pyInt q = ⌊q⌋ := by
  simp only [pyInt, if_neg (not_lt.mpr h)]

theorem pyMod_nonneg (a b : ℚ) (hb : 0 < b) : 0 ≤ pyMod a b := by
  have h1 : (⌊a / b⌋ : ℚ) ≤ a / b := Int.floor_le _
  have h2 : b * (⌊a / b⌋ : ℚ) ≤ a := by
    have h3 : b * (⌊a / b⌋ : ℚ) ≤ b * (a / b) := by nlinarith
    have h4 : b * (a / b) = a := by field_simp
    linarith
  simp only [pyMod]
  linarith

theorem pyMod_lt (a b : ℚ) (hb : 0 < b) : pyMod a b < b := by
  have h1 : a / b < (⌊a / b⌋ : ℚ) + 1 := Int.lt_floor_add_one _
  have h2 : a < ((⌊a / b⌋ : ℚ) + 1) * b := (div_lt_iff₀ hb).mp h1
  simp only [pyMod]
  nlinarith

theorem pyMod_one_eq_fract (a : ℚ) : pyMod a 1 = Int.fract a := by
  unfold pyMod
  rw [div_one, one_mul, Int.self_sub_floor]

/-- The two `add_caption` implementations share one core: the webcam one at a
set recording origin is the local-video one applied to the elapsed clock. -/
theorem webcam_add_caption_eq (t0 now : ℚ) (text : String) (st : CaptionState) :
    WebcamManager.add_caption (some t0) now text st
      = VideoPlayerManager.add_caption text (now - t0) st := rfl

theorem add_caption_last (text : String) (t : ℚ) (st : CaptionState) :
    (VideoPlayerManager.add_caption text t st).last = some t := rfl

/-! ## C1 -/

/-- C1 (code bug): the embedded `send_request` on an HTTP 404 outcome yields the
failure message `"Server error: 404 - Endpoint not found."` — which does contain
the endpoint-not-found hint — but, contrary to the claim, both `add_caption`
implementations DO store that failure result as an interval (boundary 1, clock
2), because the filter only rejects texts starting with `"Error"` and this one
starts with `"Server error:"`. -/
theorem c1_http404_caption_stored :
    APIClient.handleOutcome (FetchOutcome.http 404 (Except.error "fetch failed"))
      = JValue.jStr "Server error: 404 - Endpoint not found." ∧
    strContains "Server error: 404 - Endpoint not found." "Endpoint not found" = true ∧
    (VideoPlayerManager.add_caption "Server error: 404 - Endpoint not found." 2
        { captions := [], last := some 1 }).captions
      = [⟨1, 2, "Server error: 404 - Endpoint not found."⟩] ∧
    (WebcamManager.add_caption (some 0) 2 "Server error: 404 - Endpoint not found."
        { captions := [], last := some 1 }).captions
      = [⟨1, 2, "Server error: 404 - Endpoint not found."⟩] := by
  refine ⟨rfl, by decide, ?_, ?_⟩
  · simp only [VideoPlayerManager.add_caption, startTime]
    norm_num
    decide
  · rw [webcam_add_caption_eq]
    simp only [VideoPlayerManager.add_caption, startTime]
    norm_num
    decide

/-! ## C2 -/

/-- C2 counterexample: on the call sequence
`("a",1), ("b",2), ("Error: x",3), ("c",4)` from a reset track the retained
intervals are `[1,2]` and `[3,4]`: `start_2 = 3 ≠ 2 = end_1`, so the claimed
`start_(i+1) = end_i` contiguity fails (a skipped call advanced the cursor). -/
theorem c2_contiguity_counterexample :
    (applyVideoCalls [("a", 1), ("b", 2), ("Error: x", 3), ("c", 4)] resetTrack).captions
      = [⟨1, 2, "b"⟩, ⟨3, 4, "c"⟩] ∧
    ¬ intervalsContiguous
      (applyVideoCalls [("a", 1), ("b", 2), ("Error: x", 3), ("c", 4)] resetTrack).captions := by
  have h : (applyVideoCalls [("a", 1), ("b", 2), ("Error: x", 3), ("c", 4)] resetTrack).captions
      = [⟨1, 2, "b"⟩, ⟨3, 4, "c"⟩] := by
    simp only [applyVideoCalls, List.foldl, VideoPlayerManager.add_caption, startTime, resetTrack]
    norm_num
    decide
  refine ⟨h, ?_⟩
  rw [h]
  simp only [intervalsContiguous, List.chain'_cons, List.chain'_singleton, and_true]
  norm_num

/-! ## C4 -/

/-- C4 counterexample: `"Server error: 500 - Server error."` is a failure
result of `send()` (HTTP 500), yet `add_caption` stores it as an interval,
contradicting "no interval is stored" for failure-signalling text. -/
theorem c4_failure_text_stored_counterexample :
    APIClient.handleOutcome (FetchOutcome.http 500 (Except.error "x"))
      = JValue.jStr "Server error: 500 - Server error." ∧
    (VideoPlayerManager.add_caption "Server error: 500 - Server error." 2
        { captions := [], last := some 1 }).captions
      = [⟨1, 2, "Server error: 500 - Server error."⟩] := by
  refine ⟨rfl, ?_⟩
  simp only [VideoPlayerManager.add_caption, startTime]
  norm_num
  decide

/-- C4 (amended): when the text starts with `"Error"` (the code's failure
marker — HTTP-error messages `"Server error: ..."` are not filtered), or is
empty, or the clock does not strictly exceed the interval-start candidate, no
interval is stored, yet the boundary cursor is unconditionally advanced to
`t`; when `t ≠ 0`, any interval stored by the immediately following call
starts at `t`. The webcam implementation reduces to the same core at the
elapsed clock. -/
theorem c4_skip_advances_cursor (text : String) (t : ℚ) (st : CaptionState)
    (h : pyStartsWith text "Error" = true ∨ text = "" ∨ t ≤ startTime st.last t) :
    (VideoPlayerManager.add_caption text t st).captions = st.captions ∧
    (VideoPlayerManager.add_caption text t st).last = some t ∧
    (t ≠ 0 → ∀ text2 t2,
      (VideoPlayerManager.add_caption text2 t2 (VideoPlayerManager.add_caption text t st)).captions
          = (VideoPlayerManager.add_caption text t st).captions ∨
      (VideoPlayerManager.add_caption text2 t2 (VideoPlayerManager.add_caption text t st)).captions
          = (VideoPlayerManager.add_caption text t st).captions ++ [⟨t, t2, pyStrip text2⟩]) ∧
    (∀ t0 now, WebcamManager.add_caption (some t0) now text st
        = VideoPlayerManager.add_caption text (now - t0) st) := by
  have hno : ¬ (t > startTime st.last t ∧ text ≠ "" ∧ pyStartsWith text "Error" = false) := by
    rcases h with h | h | h
    · rintro ⟨-, -, hf⟩
      rw [h] at hf
      simp at hf
    · rintro ⟨-, hne, -⟩
      exact hne h
    · rintro ⟨hgt, -, -⟩
      exact absurd hgt (not_lt.mpr h)
  refine ⟨?_, rfl, ?_, fun t0 now => webcam_add_caption_eq t0 now text st⟩
  · simp only [VideoPlayerManager.add_caption, if_neg hno]
  · intro ht text2 t2
    have hlast : (VideoPlayerManager.add_caption text t st).last = some t := rfl
    by_cases hc : (t2 > startTime (VideoPlayerManager.add_caption text t st).last t2
        ∧ text2 ≠ "" ∧ pyStartsWith text2 "Error" = false)
    · right
      have hstart : startTime (VideoPlayerManager.add_caption text t st).last t2 = t := by
        rw [hlast]
        simp [startTime, ht]
      conv_lhs => rw [VideoPlayerManager.add_caption]
      rw [if_pos hc, hstart]
    · left
      conv_lhs => rw [VideoPlayerManager.add_caption]
      rw [if_neg hc]

/-- Witness for C4: the failure-marked text `"Error: boom"` at clock 3 on a
reset track stores nothing and advances the cursor to 3. -/
theorem c4_skip_advances_cursor_witness :
    pyStartsWith "Error: boom" "Error" = true ∧
    (VideoPlayerManager.add_caption "Error: boom" 3 resetTrack).captions = resetTrack.captions ∧
    (VideoPlayerManager.add_caption "Error: boom" 3 resetTrack).last = some 3 :=
  ⟨by decide, (c4_skip_advances_cursor "Error: boom" 3 resetTrack (Or.inl (by decide))).1,
    (c4_skip_advances_cursor "Error: boom" 3 resetTrack (Or.inl (by decide))).2.1⟩

/-! ## C10 -/

/-- C10: in both `add_caption` implementations the interval-start fallback to
the current clock is taken whenever the boundary cursor is falsy — absent
(`None`) or exactly `0` — and consequently no interval at all is stored by a
call made over a zero (or absent) boundary cursor, since its start candidate
equals its end; the webcam implementation is the same core at the elapsed
clock. -/
theorem c10_zero_boundary_falls_back (text : String) (t : ℚ) (st : CaptionState)
    (h : st.last = none ∨ st.last = some 0) :
    startTime st.last t = t ∧
    (VideoPlayerManager.add_caption text t st).captions = st.captions ∧
    (∀ t0 now, (WebcamManager.add_caption (some t0) now text st).captions = st.captions) := by
  have key : ∀ u : ℚ, startTime st.last u = u := by
    intro u
    rcases h with h | h <;> simp [startTime, h]
  have keycap : ∀ u : ℚ, (VideoPlayerManager.add_caption text u st).captions = st.captions := by
    intro u
    have hno : ¬ (u > startTime st.last u ∧ text ≠ "" ∧ pyStartsWith text "Error" = false) := by
      rintro ⟨hgt, -, -⟩
      rw [key u] at hgt
      exact lt_irrefl u hgt
    simp only [VideoPlayerManager.add_caption, if_neg hno]
  exact ⟨key t, keycap t, fun t0 now => by rw [webcam_add_caption_eq]; exact keycap (now - t0)⟩

/-- Witness for C10: over the boundary cursor `some 0` at clock 7 the start
candidate is 7 (the call's own clock) and nothing is stored. -/
theorem c10_zero_boundary_falls_back_witness :
    ((some (0 : ℚ) = none ∨ some (0 : ℚ) = some 0) ∧
      startTime (some 0) 7 = 7) ∧
    (VideoPlayerManager.add_caption "ok" 7 { captions := [], last := some 0 }).captions = [] ∧
    (WebcamManager.add_caption (some 2) 9 "ok" { captions := [], last := some 0 }).captions = [] :=
  ⟨⟨Or.inr rfl, (c10_zero_boundary_falls_back "ok" 7 ⟨[], some 0⟩ (Or.inr rfl)).1⟩,
    (c10_zero_boundary_falls_back "ok" 7 ⟨[], some 0⟩ (Or.inr rfl)).2.1,
    (c10_zero_boundary_falls_back "ok" 7 ⟨[], some 0⟩ (Or.inr rfl)).2.2 2 9⟩


/-! ## C2: track invariant machinery -/

theorem add_caption_trackInv (text : String) (t : ℚ) (st : CaptionState)
    (hInv : trackInv st) (hb : ∀ b, st.last = some b → b ≤ t) :
    trackInv (VideoPlayerManager.add_caption text t st) := by
  obtain ⟨hpos, hchain, hlast⟩ := hInv
  by_cases hc : (t > startTime st.last t ∧ text ≠ "" ∧ pyStartsWith text "Error" = false)
  · have hstlt : startTime st.last t < t := hc.1
    have hbound : ∀ c ∈ st.captions, c.«end» ≤ startTime st.last t := by
      intro c hcm
      cases hl : st.last with
      | none =>
        rw [hl] at hlast
        simp only at hlast
        rw [hlast] at hcm
        simp at hcm
      | some b =>
        rw [hl] at hlast
        have hcb := hlast c hcm
        by_cases hb0 : b = 0
        · rw [hl] at hstlt
          simp [startTime, hb0] at hstlt
        · simp only [startTime, if_neg hb0]
          exact hcb
    have hcap : (VideoPlayerManager.add_caption text t st).captions
        = st.captions ++ [⟨startTime st.last t, t, pyStrip text⟩] := by
      simp only [VideoPlayerManager.add_caption, if_pos hc]
    unfold trackInv
    refine ⟨?_, ?_, ?_⟩
    · rw [hcap]
      intro c hcm
      rcases List.mem_append.mp hcm with h1 | h1
      · exact hpos c h1
      · simp only [List.mem_singleton] at h1
        rw [h1]
        exact hstlt
    · unfold intervalsNonOverlap at hchain ⊢
      rw [hcap, List.chain'_append]
      refine ⟨hchain, List.chain'_singleton _, ?_⟩
      intro x hx y hy
      simp only [List.head?_cons, Option.mem_def, Option.some.injEq] at hy
      rw [← hy]
      exact hbound x (List.mem_of_mem_getLast? hx)
    · rw [add_caption_last]
      show ∀ c ∈ (VideoPlayerManager.add_caption text t st).captions, c.«end» ≤ t
      rw [hcap]
      intro c hcm
      rcases List.mem_append.mp hcm with h1 | h1
      · exact le_trans (hbound c h1) (le_of_lt hstlt)
      · simp only [List.mem_singleton] at h1
        rw [h1]
  · have hcap : (VideoPlayerManager.add_caption text t st).captions = st.captions := by
      simp only [VideoPlayerManager.add_caption, if_neg hc]
    unfold trackInv
    refine ⟨?_, ?_, ?_⟩
    · rw [hcap]; exact hpos
    · unfold intervalsNonOverlap at hchain ⊢
      rw [hcap]; exact hchain
    · rw [add_caption_last]
      show ∀ c ∈ (VideoPlayerManager.add_caption text t st).captions, c.«end» ≤ t
      rw [hcap]
      intro c hcm
      cases hl : st.last with
      | none =>
        rw [hl] at hlast
        simp only at hlast
        rw [hlast] at hcm
        simp at hcm
      | some b =>
        rw [hl] at hlast
        exact le_trans (hlast c hcm) (hb b hl)

theorem applyVideoCalls_trackInv (calls : List (String × ℚ)) (st : CaptionState)
    (hInv : trackInv st)
    (hb : ∀ b, st.last = some b → ∀ p ∈ calls, b ≤ p.2)
    (hs : List.Pairwise (fun a b : ℚ => a ≤ b) (calls.map Prod.snd)) :
    trackInv (applyVideoCalls calls st) := by
  induction calls generalizing st with
  | nil => simpa [applyVideoCalls] using hInv
  | cons p rest ih =>
    simp only [applyVideoCalls, List.foldl_cons] at ih ⊢
    simp only [List.map_cons, List.pairwise_cons] at hs
    apply ih
    · apply add_caption_trackInv _ _ _ hInv
      intro b hbe
      exact hb b hbe p (List.mem_cons_self p rest)
    · intro b hbe q hq
      rw [add_caption_last] at hbe
      have hbp : b = p.2 := (Option.some.injEq _ _ ▸ hbe).symm
      rw [hbp]
      exact hs.1 q.2 (List.mem_map_of_mem Prod.snd hq)
    · exact hs.2

theorem applyWebcamCalls_eq (t0 : ℚ) (calls : List (String × ℚ)) (st : CaptionState) :
    applyWebcamCalls (some t0) calls st
      = applyVideoCalls (calls.map (fun p => (p.1, p.2 - t0))) st := by
  induction calls generalizing st with
  | nil => rfl
  | cons p rest ih =>
    simp only [applyWebcamCalls, applyVideoCalls, List.foldl_cons, List.map_cons] at ih ⊢
    rw [webcam_add_caption_eq]
    exact ih _

theorem resetTrack_trackInv : trackInv resetTrack :=
  ⟨fun c hc => absurd hc (List.not_mem_nil c), List.chain'_nil, rfl⟩

/-! ## C2: main theorem -/

/-- C2 (amended): starting from a reset track, for every call sequence whose
clock values are non-decreasing (the source-clock invariant), every retained
interval satisfies `end > start`, and consecutive retained intervals never
overlap (`end_i ≤ start_(i+1)`); gaps (`start_(i+1) > end_i`) can occur when
intervening calls were skipped, since the cursor still advances — the claimed
equality `start_(i+1) = end_i` does not hold in general. Both the local-video
track and the webcam track (any recording origin) satisfy the invariant. -/
theorem c2_track_invariants (calls : List (String × ℚ))
    (hs : List.Pairwise (fun a b : ℚ => a ≤ b) (calls.map Prod.snd)) :
    (intervalsPositive (applyVideoCalls calls resetTrack).captions ∧
      intervalsNonOverlap (applyVideoCalls calls resetTrack).captions) ∧
    ∀ t0 : ℚ, intervalsPositive (applyWebcamCalls (some t0) calls resetTrack).captions ∧
      intervalsNonOverlap (applyWebcamCalls (some t0) calls resetTrack).captions := by
  have hvid := applyVideoCalls_trackInv calls resetTrack resetTrack_trackInv
    (fun b hbe => by simp [resetTrack] at hbe) hs
  refine ⟨⟨hvid.1, hvid.2.1⟩, ?_⟩
  intro t0
  rw [applyWebcamCalls_eq]
  have hs2 : List.Pairwise (fun a b : ℚ => a ≤ b)
      ((calls.map (fun p => (p.1, p.2 - t0))).map Prod.snd) := by
    rw [List.map_map]
    rw [List.pairwise_map]
    rw [List.pairwise_map] at hs
    exact hs.imp (fun h => by simpa using sub_le_sub_right h t0)
  have hweb := applyVideoCalls_trackInv (calls.map (fun p => (p.1, p.2 - t0))) resetTrack
    resetTrack_trackInv (fun b hbe => by simp [resetTrack] at hbe) hs2
  exact ⟨hweb.1, hweb.2.1⟩

/-- Witness for C2: the sorted call sequence `("a",1), ("b",2)`. -/
theorem c2_track_invariants_witness :
    List.Pairwise (fun a b : ℚ => a ≤ b) ([("a", (1 : ℚ)), ("b", 2)].map Prod.snd) ∧
    (intervalsPositive (applyVideoCalls [("a", 1), ("b", 2)] resetTrack).captions ∧
      intervalsNonOverlap (applyVideoCalls [("a", 1), ("b", 2)] resetTrack).captions) ∧
    (intervalsPositive (applyWebcamCalls (some 5) [("a", 1), ("b", 2)] resetTrack).captions ∧
      intervalsNonOverlap (applyWebcamCalls (some 5) [("a", 1), ("b", 2)] resetTrack).captions) :=
  ⟨by decide,
    (c2_track_invariants [("a", 1), ("b", 2)] (by decide)).1,
    (c2_track_invariants [("a", 1), ("b", 2)] (by decide)).2 5⟩


/-! ## C3 -/

theorem format_eq_specFloor (s : ℚ) :
    CaptionGenerator.format_time_srt s = specFormatTimeSrtFloor s := by
  have h60 : (0 : ℚ) ≤ pyMod s 60 := pyMod_nonneg s 60 (by norm_num)
  have h1000 : (0 : ℚ) ≤ pyMod s 1 * 1000 :=
    mul_nonneg (pyMod_nonneg s 1 (by norm_num)) (by norm_num)
  simp only [CaptionGenerator.format_time_srt, specFormatTimeSrtFloor, pyFloorDiv,
    pyInt_intCast, pyInt_of_nonneg _ h60, pyInt_of_nonneg _ h1000]

theorem specFloor_eval (s : ℚ) (H M S MS : ℤ)
    (h1 : ⌊s / 3600⌋ = H) (h2 : ⌊pyMod s 3600 / 60⌋ = M)
    (h3 : ⌊pyMod s 60⌋ = S) (h4 : ⌊pyMod s 1 * 1000⌋ = MS) :
    specFormatTimeSrtFloor s = String.mk (intPadChars 2 H ++ ':' :: intPadChars 2 M
      ++ ':' :: intPadChars 2 S ++ ',' :: intPadChars 3 MS) := by
  simp only [specFormatTimeSrtFloor, h1, h2, h3, h4]

theorem specRound_eval (s : ℚ) (H M S MS : ℤ)
    (h1 : ⌊s / 3600⌋ = H) (h2 : ⌊pyMod s 3600 / 60⌋ = M)
    (h3 : ⌊pyMod s 60⌋ = S) (h4 : round (pyMod s 1 * 1000) = MS) :
    specFormatTimeSrtRound s = String.mk (intPadChars 2 H ++ ':' :: intPadChars 2 M
      ++ ':' :: intPadChars 2 S ++ ',' :: intPadChars 3 MS) := by
  simp only [specFormatTimeSrtRound, h1, h2, h3, h4]

theorem format_ex_zero : CaptionGenerator.format_time_srt 0 = "00:00:00,000" := by
  have hH : ⌊(0 : ℚ) / 3600⌋ = 0 := by norm_num
  have hm36 : pyMod (0 : ℚ) 3600 = 0 := by simp only [pyMod, hH]; norm_num
  have hM : ⌊pyMod (0 : ℚ) 3600 / 60⌋ = 0 := by rw [hm36]; norm_num
  have h60f : ⌊(0 : ℚ) / 60⌋ = 0 := by norm_num
  have hm60 : pyMod (0 : ℚ) 60 = 0 := by simp only [pyMod, h60f]; norm_num
  have hS : ⌊pyMod (0 : ℚ) 60⌋ = 0 := by rw [hm60]; norm_num
  have hfl1 : ⌊(0 : ℚ) / 1⌋ = 0 := by norm_num
  have hm1 : pyMod (0 : ℚ) 1 = 0 := by simp only [pyMod, hfl1]; norm_num
  have hMS : ⌊pyMod (0 : ℚ) 1 * 1000⌋ = 0 := by rw [hm1]; norm_num
  rw [format_eq_specFloor, specFloor_eval 0 0 0 0 0 hH hM hS hMS]
  decide

theorem format_ex_sixtyfive : CaptionGenerator.format_time_srt (131 / 2) = "00:01:05,500" := by
  have hH : ⌊(131 / 2 : ℚ) / 3600⌋ = 0 := by norm_num [Int.floor_eq_iff]
  have hm36 : pyMod (131 / 2 : ℚ) 3600 = 131 / 2 := by simp only [pyMod, hH]; norm_num
  have hM : ⌊pyMod (131 / 2 : ℚ) 3600 / 60⌋ = 1 := by rw [hm36]; norm_num [Int.floor_eq_iff]
  have h60f : ⌊(131 / 2 : ℚ) / 60⌋ = 1 := by norm_num [Int.floor_eq_iff]
  have hm60 : pyMod (131 / 2 : ℚ) 60 = 11 / 2 := by simp only [pyMod, h60f]; norm_num
  have hS : ⌊pyMod (131 / 2 : ℚ) 60⌋ = 5 := by rw [hm60]; norm_num [Int.floor_eq_iff]
  have hfl1 : ⌊(131 / 2 : ℚ) / 1⌋ = 65 := by norm_num [Int.floor_eq_iff]
  have hm1 : pyMod (131 / 2 : ℚ) 1 = 1 / 2 := by simp only [pyMod, hfl1]; norm_num
  have hMS : ⌊pyMod (131 / 2 : ℚ) 1 * 1000⌋ = 500 := by rw [hm1]; norm_num [Int.floor_eq_iff]
  rw [format_eq_specFloor, specFloor_eval (131 / 2) 0 1 5 500 hH hM hS hMS]
  decide

theorem format_ex_hour : CaptionGenerator.format_time_srt (3661234 / 1000) = "01:01:01,234" := by
  have hH : ⌊(3661234 / 1000 : ℚ) / 3600⌋ = 1 := by norm_num [Int.floor_eq_iff]
  have hm36 : pyMod (3661234 / 1000 : ℚ) 3600 = 61234 / 1000 := by
    simp only [pyMod, hH]; norm_num
  have hM : ⌊pyMod (3661234 / 1000 : ℚ) 3600 / 60⌋ = 1 := by
    rw [hm36]; norm_num [Int.floor_eq_iff]
  have h60f : ⌊(3661234 / 1000 : ℚ) / 60⌋ = 61 := by norm_num [Int.floor_eq_iff]
  have hm60 : pyMod (3661234 / 1000 : ℚ) 60 = 1234 / 1000 := by
    simp only [pyMod, h60f]; norm_num
  have hS : ⌊pyMod (3661234 / 1000 : ℚ) 60⌋ = 1 := by rw [hm60]; norm_num [Int.floor_eq_iff]
  have hfl1 : ⌊(3661234 / 1000 : ℚ) / 1⌋ = 3661 := by norm_num [Int.floor_eq_iff]
  have hm1 : pyMod (3661234 / 1000 : ℚ) 1 = 234 / 1000 := by simp only [pyMod, hfl1]; norm_num
  have hMS : ⌊pyMod (3661234 / 1000 : ℚ) 1 * 1000⌋ = 234 := by
    rw [hm1]; norm_num [Int.floor_eq_iff]
  rw [format_eq_specFloor, specFloor_eval (3661234 / 1000) 1 1 1 234 hH hM hS hMS]
  decide

/-- C3 counterexample: at `s = 3/5000` (0.6 ms) the code truncates the
millisecond field to `000` while the claim's reference definition with
`round` yields `001`, so `format_time_srt` does not equal the claimed
reference definition. -/
theorem c3_round_counterexample :
    CaptionGenerator.format_time_srt (3 / 5000) ≠ specFormatTimeSrtRound (3 / 5000) ∧
    CaptionGenerator.format_time_srt (3 / 5000) = "00:00:00,000" ∧
    specFormatTimeSrtRound (3 / 5000) = "00:00:00,001" := by
  have hH : ⌊(3 / 5000 : ℚ) / 3600⌋ = 0 := by norm_num [Int.floor_eq_iff]
  have hm36 : pyMod (3 / 5000 : ℚ) 3600 = 3 / 5000 := by simp only [pyMod, hH]; norm_num
  have hM : ⌊pyMod (3 / 5000 : ℚ) 3600 / 60⌋ = 0 := by rw [hm36]; norm_num [Int.floor_eq_iff]
  have h60f : ⌊(3 / 5000 : ℚ) / 60⌋ = 0 := by norm_num [Int.floor_eq_iff]
  have hm60 : pyMod (3 / 5000 : ℚ) 60 = 3 / 5000 := by simp only [pyMod, h60f]; norm_num
  have hS : ⌊pyMod (3 / 5000 : ℚ) 60⌋ = 0 := by rw [hm60]; norm_num [Int.floor_eq_iff]
  have hfl1 : ⌊(3 / 5000 : ℚ) / 1⌋ = 0 := by norm_num [Int.floor_eq_iff]
  have hm1 : pyMod (3 / 5000 : ℚ) 1 = 3 / 5000 := by simp only [pyMod, hfl1]; norm_num
  have hMS : ⌊pyMod (3 / 5000 : ℚ) 1 * 1000⌋ = 0 := by rw [hm1]; norm_num [Int.floor_eq_iff]
  have hR : round (pyMod (3 / 5000 : ℚ) 1 * 1000) = 1 := by
    rw [hm1]; norm_num [round_eq, Int.floor_eq_iff]
  have hfmt : CaptionGenerator.format_time_srt (3 / 5000) = "00:00:00,000" := by
    rw [format_eq_specFloor, specFloor_eval (3 / 5000) 0 0 0 0 hH hM hS hMS]
    decide
  have hrnd : specFormatTimeSrtRound (3 / 5000) = "00:00:00,001" := by
    rw [specRound_eval (3 / 5000) 0 0 0 1 hH hM hS hR]
    decide
  refine ⟨?_, hfmt, hrnd⟩
  rw [hfmt, hrnd]
  decide

/-- C3 (amended): for every `s ≥ 0`, `format_time_srt s` equals the reference
definition with milliseconds TRUNCATED — `millis = floor((s mod 1) * 1000)` —
rather than rounded (the code uses `int()`); the three example values hold
under exact arithmetic. -/
theorem c3_format_time_srt_floor :
    (∀ s : ℚ, 0 ≤ s → CaptionGenerator.format_time_srt s = specFormatTimeSrtFloor s) ∧
    CaptionGenerator.format_time_srt 0 = "00:00:00,000" ∧
    CaptionGenerator.format_time_srt (131 / 2) = "00:01:05,500" ∧
    CaptionGenerator.format_time_srt (3661234 / 1000) = "01:01:01,234" :=
  ⟨fun s _ => format_eq_specFloor s, format_ex_zero, format_ex_sixtyfive, format_ex_hour⟩

/-- Witness for C3 at `s = 131/2`. -/
theorem c3_format_time_srt_floor_witness :
    (0 : ℚ) ≤ 131 / 2 ∧
    CaptionGenerator.format_time_srt (131 / 2) = specFormatTimeSrtFloor (131 / 2) :=
  ⟨by norm_num, c3_format_time_srt_floor.1 (131 / 2) (by norm_num)⟩


/-! ## C6 and C7: helper lemmas -/

theorem any_key_eq_isSome_find? (fields : List (String × JValue)) (k : String) :
    fields.any (fun p => p.1 == k) = (fields.find? (fun p => p.1 == k)).isSome := by
  induction fields with
  | nil => rfl
  | cons p rest ih =>
    cases h : (p.1 == k) with
    | true =>
      have hfind : List.find? (fun q : String × JValue => q.1 == k) (p :: rest) = some p :=
        List.find?_cons_of_pos _ h
      simp [List.any_cons, h, hfind]
    | false =>
      have hneg : ¬((fun q : String × JValue => q.1 == k) p = true) := by simp [h]
      have hfind : List.find? (fun q : String × JValue => q.1 == k) (p :: rest)
          = List.find? (fun q : String × JValue => q.1 == k) rest :=
        List.find?_cons_of_neg _ hneg
      simp [List.any_cons, h, hfind, ih]

theorem strContains_single_message (c : Char) :
    strContains (String.mk [c]) "message" = false := by
  simp [strContains, strContainsAux, List.isPrefixOf]

theorem pyStartsWith_append_left (p s t : String) (h : pyStartsWith s p = true) :
    pyStartsWith (s ++ t) p = true := by
  simp only [pyStartsWith, String.data_append] at h ⊢
  rw [ List.isPrefixOf_iff_prefix] at h ⊢
  exact h.trans (List.prefix_append _ _)

theorem errorMsgMarked (e : String) : pyStartsWith ("Error: " ++ e) "Error" = true :=
  pyStartsWith_append_left "Error" "Error: " e (by decide)

theorem serverMsgMarked (status : ℕ) :
    pyStartsWith (APIClient.serverErrorMsg status) "Server error:" = true := by
  unfold APIClient.serverErrorMsg
  apply pyStartsWith_append_left
  apply pyStartsWith_append_left
  decide

theorem serverMsgMarkedRoot (status : ℕ) :
    pyStartsWith (CameraAppRoot.serverErrorMsg status) "Server error:" = true := by
  unfold CameraAppRoot.serverErrorMsg
  apply pyStartsWith_append_left
  apply pyStartsWith_append_left
  decide

theorem responseContent_ok (data c : JValue) (h : specContent data = some c) :
    APIClient.responseContent data = Except.ok c := by
  unfold specContent at h
  rcases Option.bind_eq_some.mp h with ⟨cs, hcs, h2⟩
  rcases Option.bind_eq_some.mp h2 with ⟨c0, hc0, h3⟩
  rcases Option.bind_eq_some.mp h3 with ⟨m, hm, hcontent⟩
  cases data with
  | jNull => simp [asObjGet] at hcs
  | jBool b => simp [asObjGet] at hcs
  | jNum q => simp [asObjGet] at hcs
  | jStr s => simp [asObjGet] at hcs
  | jArr a => simp [asObjGet] at hcs
  | jObj fields =>
    simp only [asObjGet] at hcs
    rcases Option.map_eq_some'.mp hcs with ⟨p, hfind, hp2⟩
    cases cs with
    | jNull => simp [asArrGet] at hc0
    | jBool b => simp [asArrGet] at hc0
    | jNum q => simp [asArrGet] at hc0
    | jStr s => simp [asArrGet] at hc0
    | jObj f => simp [asArrGet] at hc0
    | jArr elems =>
      simp only [asArrGet] at hc0
      cases c0 with
      | jNull => simp [asObjGet] at hm
      | jBool b => simp [asObjGet] at hm
      | jNum q => simp [asObjGet] at hm
      | jStr s => simp [asObjGet] at hm
      | jArr a => simp [asObjGet] at hm
      | jObj f2 =>
        simp only [asObjGet] at hm
        rcases Option.map_eq_some'.mp hm with ⟨q, hfind2, hq2⟩
        cases m with
        | jNull => simp [asObjGet] at hcontent
        | jBool b => simp [asObjGet] at hcontent
        | jNum qq => simp [asObjGet] at hcontent
        | jStr s => simp [asObjGet] at hcontent
        | jArr a => simp [asObjGet] at hcontent
        | jObj f3 =>
          simp only [asObjGet] at hcontent
          rcases Option.map_eq_some'.mp hcontent with ⟨r, hfind3, hr2⟩
          have hany : fields.any (fun p => p.1 == "choices") = true := by
            rw [any_key_eq_isSome_find?, hfind]; rfl
          have hany2 : f2.any (fun p => p.1 == "message") = true := by
            rw [any_key_eq_isSome_find?, hfind2]; rfl
          have hlen : elems.length ≠ 0 := by
            intro h0
            rw [List.length_eq_zero] at h0
            rw [h0] at hc0
            simp at hc0
          simp [APIClient.responseContent, pyIn, pyGetItem, pyLen, hany, hany2,
            hfind, hfind2, hfind3, hc0, hp2, hq2, hr2, hlen]

theorem responseContent_fail (data : JValue) (h : specContent data = none) :
    (∃ e, APIClient.responseContent data = Except.error e) ∨
    APIClient.responseContent data = Except.ok (JValue.jStr "Error: Invalid response format") := by
  cases data with
  | jNull => exact Or.inl ⟨_, rfl⟩
  | jBool b => exact Or.inl ⟨_, rfl⟩
  | jNum q => exact Or.inl ⟨_, rfl⟩
  | jStr s =>
    cases hsc : strContains s "choices" with
    | false =>
      right
      simp [APIClient.responseContent, pyIn, hsc]
    | true =>
      left
      refine ⟨"string indices must be integers", ?_⟩
      simp [APIClient.responseContent, pyIn, pyGetItem, hsc]
  | jArr a =>
    cases hsc : a.any (fun v => match v with | JValue.jStr s => s == "choices" | _ => false) with
    | false =>
      right
      simp [APIClient.responseContent, pyIn, hsc]
    | true =>
      left
      refine ⟨"list indices must be integers", ?_⟩
      simp [APIClient.responseContent, pyIn, pyGetItem, hsc]
  | jObj fields =>
    cases hf : fields.find? (fun p => p.1 == "choices") with
    | none =>
      right
      have hany : fields.any (fun p => p.1 == "choices") = false := by
        rw [any_key_eq_isSome_find?, hf]; rfl
      simp [APIClient.responseContent, pyIn, hany]
    | some p =>
      have hany : fields.any (fun p => p.1 == "choices") = true := by
        rw [any_key_eq_isSome_find?, hf]; rfl
      cases hcs : p.2 with
      | jNull =>
        left
        exact ⟨"object has no len()",
          by simp [APIClient.responseContent, pyIn, pyGetItem, pyLen, hany, hf, hcs]⟩
      | jBool b =>
        left
        exact ⟨"object has no len()",
          by simp [APIClient.responseContent, pyIn, pyGetItem, pyLen, hany, hf, hcs]⟩
      | jNum q =>
        left
        exact ⟨"object has no len()",
          by simp [APIClient.responseContent, pyIn, pyGetItem, pyLen, hany, hf, hcs]⟩
      | jStr s2 =>
        by_cases hl : s2.length = 0
        · right
          simp [APIClient.responseContent, pyIn, pyGetItem, pyLen, hany, hf, hcs, hl]
        · have hchar : ∃ ch rest, s2.data = ch :: rest := by
            cases hd : s2.data with
            | nil =>
              exfalso
              apply hl
              have : s2.length = s2.data.length := rfl
              rw [this, hd]
              rfl
            | cons ch rest => exact ⟨ch, rest, rfl⟩
          obtain ⟨ch, rest, hch⟩ := hchar
          right
          have hget : s2.data[0]? = some ch := by rw [hch]; simp
          have hmsg := strContains_single_message ch
          simp [APIClient.responseContent, pyIn, pyGetItem, pyLen, hany, hf, hcs, hl, hget, hmsg]
      | jObj f2 =>
        by_cases hl : f2.length = 0
        · right
          simp [APIClient.responseContent, pyIn, pyGetItem, pyLen, hany, hf, hcs, hl]
        · left
          refine ⟨"KeyError: 0", ?_⟩
          simp [APIClient.responseContent, pyIn, pyGetItem, pyLen, hany, hf, hcs, hl]
      | jArr elems =>
        cases elems with
        | nil =>
          right
          simp [APIClient.responseContent, pyIn, pyGetItem, pyLen, hany, hf, hcs]
        | cons c0 rest =>
          have hlen : (c0 :: rest).length ≠ 0 := by simp
          cases c0 with
          | jNull =>
            left
            exact ⟨"argument of type is not iterable",
              by simp [APIClient.responseContent, pyIn, pyGetItem, pyLen, hany, hf, hcs, hlen]⟩
          | jBool b =>
            left
            exact ⟨"argument of type is not iterable",
              by simp [APIClient.responseContent, pyIn, pyGetItem, pyLen, hany, hf, hcs, hlen]⟩
          | jNum q =>
            left
            exact ⟨"argument of type is not iterable",
              by simp [APIClient.responseContent, pyIn, pyGetItem, pyLen, hany, hf, hcs, hlen]⟩
          | jStr s2 =>
            cases hmsg : strContains s2 "message" with
            | false =>
              right
              simp [APIClient.responseContent, pyIn, pyGetItem, pyLen, hany, hf, hcs, hlen, hmsg]
            | true =>
              left
              refine ⟨"string indices must be integers", ?_⟩
              simp [APIClient.responseContent, pyIn, pyGetItem, pyLen, hany, hf, hcs, hlen, hmsg]
          | jArr a2 =>
            cases hmsg : a2.any
                (fun v => match v with | JValue.jStr s => s == "message" | _ => false) with
            | false =>
              right
              simp [APIClient.responseContent, pyIn, pyGetItem, pyLen, hany, hf, hcs, hlen, hmsg]
            | true =>
              left
              refine ⟨"list indices must be integers", ?_⟩
              simp [APIClient.responseContent, pyIn, pyGetItem, pyLen, hany, hf, hcs, hlen, hmsg]
          | jObj f2 =>
            cases hf2 : f2.find? (fun p => p.1 == "message") with
            | none =>
              right
              have hany2 : f2.any (fun p => p.1 == "message") = false := by
                rw [any_key_eq_isSome_find?, hf2]; rfl
              simp [APIClient.responseContent, pyIn, pyGetItem, pyLen, hany, hany2, hf, hcs, hlen, hf2]
            | some q =>
              have hany2 : f2.any (fun p => p.1 == "message") = true := by
                rw [any_key_eq_isSome_find?, hf2]; rfl
              cases hq : q.2 with
              | jNull =>
                left
                exact ⟨"object is not subscriptable", by
                  simp [APIClient.responseContent, pyIn, pyGetItem, pyLen, hany, hany2, hf, hcs,
                    hlen, hf2, hq]⟩
              | jBool b =>
                left
                exact ⟨"object is not subscriptable", by
                  simp [APIClient.responseContent, pyIn, pyGetItem, pyLen, hany, hany2, hf, hcs,
                    hlen, hf2, hq]⟩
              | jNum qq =>
                left
                exact ⟨"object is not subscriptable", by
                  simp [APIClient.responseContent, pyIn, pyGetItem, pyLen, hany, hany2, hf, hcs,
                    hlen, hf2, hq]⟩
              | jStr s3 =>
                left
                refine ⟨"string indices must be integers", ?_⟩
                simp [APIClient.responseContent, pyIn, pyGetItem, pyLen, hany, hany2, hf, hcs,
                  hlen, hf2, hq]
              | jArr a3 =>
                left
                refine ⟨"list indices must be integers", ?_⟩
                simp [APIClient.responseContent, pyIn, pyGetItem, pyLen, hany, hany2, hf, hcs,
                  hlen, hf2, hq]
              | jObj f3 =>
                cases hf3 : f3.find? (fun p => p.1 == "content") with
                | none =>
                  left
                  refine ⟨"KeyError: content", ?_⟩
                  simp [APIClient.responseContent, pyIn, pyGetItem, pyLen, hany, hany2, hf, hcs,
                    hlen, hf2, hq, hf3]
                | some r =>
                  exfalso
                  have hsome : specContent (JValue.jObj fields) = some r.2 := by
                    simp [specContent, asObjGet, asArrGet, hf, hcs, hf2, hq, hf3]
                  rw [hsome] at h
                  simp at h

theorem responseContent_okRoot (data c : JValue) (h : specContent data = some c) :
    CameraAppRoot.responseContent data = Except.ok c := by
  unfold specContent at h
  rcases Option.bind_eq_some.mp h with ⟨cs, hcs, h2⟩
  rcases Option.bind_eq_some.mp h2 with ⟨c0, hc0, h3⟩
  rcases Option.bind_eq_some.mp h3 with ⟨m, hm, hcontent⟩
  cases data with
  | jNull => simp [asObjGet] at hcs
  | jBool b => simp [asObjGet] at hcs
  | jNum q => simp [asObjGet] at hcs
  | jStr s => simp [asObjGet] at hcs
  | jArr a => simp [asObjGet] at hcs
  | jObj fields =>
    simp only [asObjGet] at hcs
    rcases Option.map_eq_some'.mp hcs with ⟨p, hfind, hp2⟩
    cases cs with
    | jNull => simp [asArrGet] at hc0
    | jBool b => simp [asArrGet] at hc0
    | jNum q => simp [asArrGet] at hc0
    | jStr s => simp [asArrGet] at hc0
    | jObj f => simp [asArrGet] at hc0
    | jArr elems =>
      simp only [asArrGet] at hc0
      cases c0 with
      | jNull => simp [asObjGet] at hm
      | jBool b => simp [asObjGet] at hm
      | jNum q => simp [asObjGet] at hm
      | jStr s => simp [asObjGet] at hm
      | jArr a => simp [asObjGet] at hm
      | jObj f2 =>
        simp only [asObjGet] at hm
        rcases Option.map_eq_some'.mp hm with ⟨q, hfind2, hq2⟩
        cases m with
        | jNull => simp [asObjGet] at hcontent
        | jBool b => simp [asObjGet] at hcontent
        | jNum qq => simp [asObjGet] at hcontent
        | jStr s => simp [asObjGet] at hcontent
        | jArr a => simp [asObjGet] at hcontent
        | jObj f3 =>
          simp only [asObjGet] at hcontent
          rcases Option.map_eq_some'.mp hcontent with ⟨r, hfind3, hr2⟩
          have hany : fields.any (fun p => p.1 == "choices") = true := by
            rw [any_key_eq_isSome_find?, hfind]; rfl
          have hany2 : f2.any (fun p => p.1 == "message") = true := by
            rw [any_key_eq_isSome_find?, hfind2]; rfl
          have hlen : elems.length ≠ 0 := by
            intro h0
            rw [List.length_eq_zero] at h0
            rw [h0] at hc0
            simp at hc0
          simp [CameraAppRoot.responseContent, pyIn, pyGetItem, pyLen, hany, hany2,
            hfind, hfind2, hfind3, hc0, hp2, hq2, hr2, hlen]

theorem responseContent_failRoot (data : JValue) (h : specContent data = none) :
    (∃ e, CameraAppRoot.responseContent data = Except.error e) ∨
    CameraAppRoot.responseContent data = Except.ok (JValue.jStr "Error: Invalid response format from server") := by
  cases data with
  | jNull => exact Or.inl ⟨_, rfl⟩
  | jBool b => exact Or.inl ⟨_, rfl⟩
  | jNum q => exact Or.inl ⟨_, rfl⟩
  | jStr s =>
    cases hsc : strContains s "choices" with
    | false =>
      right
      simp [CameraAppRoot.responseContent, pyIn, hsc]
    | true =>
      left
      refine ⟨"string indices must be integers", ?_⟩
      simp [CameraAppRoot.responseContent, pyIn, pyGetItem, hsc]
  | jArr a =>
    cases hsc : a.any (fun v => match v with | JValue.jStr s => s == "choices" | _ => false) with
    | false =>
      right
      simp [CameraAppRoot.responseContent, pyIn, hsc]
    | true =>
      left
      refine ⟨"list indices must be integers", ?_⟩
      simp [CameraAppRoot.responseContent, pyIn, pyGetItem, hsc]
  | jObj fields =>
    cases hf : fields.find? (fun p => p.1 == "choices") with
    | none =>
      right
      have hany : fields.any (fun p => p.1 == "choices") = false := by
        rw [any_key_eq_isSome_find?, hf]; rfl
      simp [CameraAppRoot.responseContent, pyIn, hany]
    | some p =>
      have hany : fields.any (fun p => p.1 == "choices") = true := by
        rw [any_key_eq_isSome_find?, hf]; rfl
      cases hcs : p.2 with
      | jNull =>
        left
        exact ⟨"object has no len()",
          by simp [CameraAppRoot.responseContent, pyIn, pyGetItem, pyLen, hany, hf, hcs]⟩
      | jBool b =>
        left
        exact ⟨"object has no len()",
          by simp [CameraAppRoot.responseContent, pyIn, pyGetItem, pyLen, hany, hf, hcs]⟩
      | jNum q =>
        left
        exact ⟨"object has no len()",
          by simp [CameraAppRoot.responseContent, pyIn, pyGetItem, pyLen, hany, hf, hcs]⟩
      | jStr s2 =>
        by_cases hl : s2.length = 0
        · right
          simp [CameraAppRoot.responseContent, pyIn, pyGetItem, pyLen, hany, hf, hcs, hl]
        · have hchar : ∃ ch rest, s2.data = ch :: rest := by
            cases hd : s2.data with
            | nil =>
              exfalso
              apply hl
              have : s2.length = s2.data.length := rfl
              rw [this, hd]
              rfl
            | cons ch rest => exact ⟨ch, rest, rfl⟩
          obtain ⟨ch, rest, hch⟩ := hchar
          right
          have hget : s2.data[0]? = some ch := by rw [hch]; simp
          have hmsg := strContains_single_message ch
          simp [CameraAppRoot.responseContent, pyIn, pyGetItem, pyLen, hany, hf, hcs, hl, hget, hmsg]
      | jObj f2 =>
        by_cases hl : f2.length = 0
        · right
          simp [CameraAppRoot.responseContent, pyIn, pyGetItem, pyLen, hany, hf, hcs, hl]
        · left
          refine ⟨"KeyError: 0", ?_⟩
          simp [CameraAppRoot.responseContent, pyIn, pyGetItem, pyLen, hany, hf, hcs, hl]
      | jArr elems =>
        cases elems with
        | nil =>
          right
          simp [CameraAppRoot.responseContent, pyIn, pyGetItem, pyLen, hany, hf, hcs]
        | cons c0 rest =>
          have hlen : (c0 :: rest).length ≠ 0 := by simp
          cases c0 with
          | jNull =>
            left
            exact ⟨"argument of type is not iterable",
              by simp [CameraAppRoot.responseContent, pyIn, pyGetItem, pyLen, hany, hf, hcs, hlen]⟩
          | jBool b =>
            left
            exact ⟨"argument of type is not iterable",
              by simp [CameraAppRoot.responseContent, pyIn, pyGetItem, pyLen, hany, hf, hcs, hlen]⟩
          | jNum q =>
            left
            exact ⟨"argument of type is not iterable",
              by simp [CameraAppRoot.responseContent, pyIn, pyGetItem, pyLen, hany, hf, hcs, hlen]⟩
          | jStr s2 =>
            cases hmsg : strContains s2 "message" with
            | false =>
              right
              simp [CameraAppRoot.responseContent, pyIn, pyGetItem, pyLen, hany, hf, hcs, hlen, hmsg]
            | true =>
              left
              refine ⟨"string indices must be integers", ?_⟩
              simp [CameraAppRoot.responseContent, pyIn, pyGetItem, pyLen, hany, hf, hcs, hlen, hmsg]
          | jArr a2 =>
            cases hmsg : a2.any
                (fun v => match v with | JValue.jStr s => s == "message" | _ => false) with
            | false =>
              right
              simp [CameraAppRoot.responseContent, pyIn, pyGetItem, pyLen, hany, hf, hcs, hlen, hmsg]
            | true =>
              left
              refine ⟨"list indices must be integers", ?_⟩
              simp [CameraAppRoot.responseContent, pyIn, pyGetItem, pyLen, hany, hf, hcs, hlen, hmsg]
          | jObj f2 =>
            cases hf2 : f2.find? (fun p => p.1 == "message") with
            | none =>
              right
              have hany2 : f2.any (fun p => p.1 == "message") = false := by
                rw [any_key_eq_isSome_find?, hf2]; rfl
              simp [CameraAppRoot.responseContent, pyIn, pyGetItem, pyLen, hany, hany2, hf, hcs, hlen, hf2]
            | some q =>
              have hany2 : f2.any (fun p => p.1 == "message") = true := by
                rw [any_key_eq_isSome_find?, hf2]; rfl
              cases hq : q.2 with
              | jNull =>
                left
                exact ⟨"object is not subscriptable", by
                  simp [CameraAppRoot.responseContent, pyIn, pyGetItem, pyLen, hany, hany2, hf, hcs,
                    hlen, hf2, hq]⟩
              | jBool b =>
                left
                exact ⟨"object is not subscriptable", by
                  simp [CameraAppRoot.responseContent, pyIn, pyGetItem, pyLen, hany, hany2, hf, hcs,
                    hlen, hf2, hq]⟩
              | jNum qq =>
                left
                exact ⟨"object is not subscriptable", by
                  simp [CameraAppRoot.responseContent, pyIn, pyGetItem, pyLen, hany, hany2, hf, hcs,
                    hlen, hf2, hq]⟩
              | jStr s3 =>
                left
                refine ⟨"string indices must be integers", ?_⟩
                simp [CameraAppRoot.responseContent, pyIn, pyGetItem, pyLen, hany, hany2, hf, hcs,
                  hlen, hf2, hq]
              | jArr a3 =>
                left
                refine ⟨"list indices must be integers", ?_⟩
                simp [CameraAppRoot.responseContent, pyIn, pyGetItem, pyLen, hany, hany2, hf, hcs,
                  hlen, hf2, hq]
              | jObj f3 =>
                cases hf3 : f3.find? (fun p => p.1 == "content") with
                | none =>
                  left
                  refine ⟨"KeyError: content", ?_⟩
                  simp [CameraAppRoot.responseContent, pyIn, pyGetItem, pyLen, hany, hany2, hf, hcs,
                    hlen, hf2, hq, hf3]
                | some r =>
                  exfalso
                  have hsome : specContent (JValue.jObj fields) = some r.2 := by
                    simp [specContent, asObjGet, asArrGet, hf, hcs, hf2, hq, hf3]
                  rw [hsome] at h
                  simp at h

/-! ## C6 -/

/-- C6: across every server behaviour — network failure (a raised fetch), any
non-2xx status, a body that fails JSON parsing, and any parsed body shape
missing `choices[0].message.content` — both `send_request` implementations
return a displayable failure string (prefixed `"Error"` or `"Server error:"`)
rather than raising; and whenever the success path exists they return exactly
the model content. -/
theorem c6_send_never_raises (o : FetchOutcome) :
    (specSuccess o = none →
      (∃ m, APIClient.handleOutcome o = JValue.jStr m ∧ isFailureMsg m) ∧
      (∃ m, CameraAppRoot.handleOutcome o = JValue.jStr m ∧ isFailureMsg m)) ∧
    (∀ c, specSuccess o = some c →
      APIClient.handleOutcome o = c ∧ CameraAppRoot.handleOutcome o = c) := by
  constructor
  · intro h
    cases o with
    | netError e =>
      exact ⟨⟨"Error: " ++ e, rfl, Or.inl (errorMsgMarked e)⟩,
        ⟨"Error: " ++ e, rfl, Or.inl (errorMsgMarked e)⟩⟩
    | http status body =>
      cases hok : responseOk status with
      | false =>
        refine ⟨⟨APIClient.serverErrorMsg status, ?_, Or.inr (serverMsgMarked status)⟩,
          ⟨CameraAppRoot.serverErrorMsg status, ?_, Or.inr (serverMsgMarkedRoot status)⟩⟩
        · simp [APIClient.handleOutcome, hok]
        · simp [CameraAppRoot.handleOutcome, hok]
      | true =>
        cases body with
        | error e =>
          exact ⟨⟨"Error: " ++ e, by simp [APIClient.handleOutcome, hok],
              Or.inl (errorMsgMarked e)⟩,
            ⟨"Error: " ++ e, by simp [CameraAppRoot.handleOutcome, hok],
              Or.inl (errorMsgMarked e)⟩⟩
        | ok data =>
          have hsc : specContent data = none := by simpa [specSuccess, hok] using h
          constructor
          · rcases responseContent_fail data hsc with ⟨e, he⟩ | he
            · exact ⟨"Error: " ++ e, by simp [APIClient.handleOutcome, hok, he],
                Or.inl (errorMsgMarked e)⟩
            · exact ⟨"Error: Invalid response format",
                by simp [APIClient.handleOutcome, hok, he], Or.inl (by decide)⟩
          · rcases responseContent_failRoot data hsc with ⟨e, he⟩ | he
            · exact ⟨"Error: " ++ e, by simp [CameraAppRoot.handleOutcome, hok, he],
                Or.inl (errorMsgMarked e)⟩
            · exact ⟨"Error: Invalid response format from server",
                by simp [CameraAppRoot.handleOutcome, hok, he], Or.inl (by decide)⟩
  · intro c hc
    cases o with
    | netError e => simp [specSuccess] at hc
    | http status body =>
      cases body with
      | error e => simp [specSuccess] at hc
      | ok data =>
        cases hok : responseOk status with
        | false => simp [specSuccess, hok] at hc
        | true =>
          have hsc : specContent data = some c := by simpa [specSuccess, hok] using hc
          constructor
          · simp [APIClient.handleOutcome, hok, responseContent_ok data c hsc]
          · simp [CameraAppRoot.handleOutcome, hok, responseContent_okRoot data c hsc]

/-- Witness for C6: a pure network failure maps to the `"Error: ..."` string. -/
theorem c6_send_never_raises_witness :
    specSuccess (FetchOutcome.netError "net down") = none ∧
    (∃ m, APIClient.handleOutcome (FetchOutcome.netError "net down") = JValue.jStr m ∧
      isFailureMsg m) ∧
    (∃ m, CameraAppRoot.handleOutcome (FetchOutcome.netError "net down") = JValue.jStr m ∧
      isFailureMsg m) :=
  ⟨rfl, ((c6_send_never_raises (FetchOutcome.netError "net down")).1 rfl).1,
    ((c6_send_never_raises (FetchOutcome.netError "net down")).1 rfl).2⟩

/-! ## C7 -/

/-- C7: both implementations build exactly the POST request the spec describes
(`baseURL/v1/chat/completions`, `max_tokens: 100` and the two-part user
message); `send_request` is that request fed to the fetch and its outcome
handler; and on a 200 response a parsed body is treated as success exactly
when `choices[0].message.content` exists — the content is returned — while
every other shape produces a failure string starting with `"Error"`. -/
theorem c7_request_shape_and_success (baseURL instruction image : String) (data : JValue) :
    APIClient.requestOf baseURL instruction image = specChatRequest baseURL instruction image ∧
    CameraAppRoot.requestOf baseURL instruction image
      = specChatRequest baseURL instruction image ∧
    (∀ fetch, APIClient.send_request baseURL instruction image fetch
        = APIClient.handleOutcome (fetch (APIClient.requestOf baseURL instruction image))) ∧
    (∀ fetch, CameraAppRoot.send_chat_completion_request baseURL instruction image fetch
        = CameraAppRoot.handleOutcome
            (fetch (CameraAppRoot.requestOf baseURL instruction image))) ∧
    (∀ c, specContent data = some c →
      APIClient.handleOutcome (FetchOutcome.http 200 (Except.ok data)) = c ∧
      CameraAppRoot.handleOutcome (FetchOutcome.http 200 (Except.ok data)) = c) ∧
    (specContent data = none →
      (∃ m, APIClient.handleOutcome (FetchOutcome.http 200 (Except.ok data)) = JValue.jStr m ∧
        pyStartsWith m "Error" = true) ∧
      (∃ m, CameraAppRoot.handleOutcome (FetchOutcome.http 200 (Except.ok data))
          = JValue.jStr m ∧ pyStartsWith m "Error" = true)) := by
  refine ⟨rfl, rfl, fun _ => rfl, fun _ => rfl, ?_, ?_⟩
  · intro c hsc
    constructor
    · simp [APIClient.handleOutcome, responseOk, responseContent_ok data c hsc]
    · simp [CameraAppRoot.handleOutcome, responseOk, responseContent_okRoot data c hsc]
  · intro hsc
    constructor
    · rcases responseContent_fail data hsc with ⟨e, he⟩ | he
      · exact ⟨"Error: " ++ e, by simp [APIClient.handleOutcome, responseOk, he], errorMsgMarked e⟩
      · exact ⟨"Error: Invalid response format",
          by simp [APIClient.handleOutcome, responseOk, he], by decide⟩
    · rcases responseContent_failRoot data hsc with ⟨e, he⟩ | he
      · exact ⟨"Error: " ++ e, by simp [CameraAppRoot.handleOutcome, responseOk, he], errorMsgMarked e⟩
      · exact ⟨"Error: Invalid response format from server",
          by simp [CameraAppRoot.handleOutcome, responseOk, he], by decide⟩

/-- Witness for C7: a well-formed body with `choices[0].message.content` is
treated as success by both implementations. -/
theorem c7_request_shape_and_success_witness :
    specContent (JValue.jObj
        [("choices", JValue.jArr
          [JValue.jObj [("message", JValue.jObj [("content", JValue.jStr "a cat")])]])])
      = some (JValue.jStr "a cat") ∧
    APIClient.handleOutcome (FetchOutcome.http 200 (Except.ok (JValue.jObj
        [("choices", JValue.jArr
          [JValue.jObj [("message", JValue.jObj [("content", JValue.jStr "a cat")])]])])))
      = JValue.jStr "a cat" ∧
    CameraAppRoot.handleOutcome (FetchOutcome.http 200 (Except.ok (JValue.jObj
        [("choices", JValue.jArr
          [JValue.jObj [("message", JValue.jObj [("content", JValue.jStr "a cat")])]])])))
      = JValue.jStr "a cat" :=
  ⟨rfl,
    ((c7_request_shape_and_success "http://localhost:1234" "describe" "data:image/jpeg;base64,x"
        (JValue.jObj [("choices", JValue.jArr
          [JValue.jObj [("message", JValue.jObj
            [("content", JValue.jStr "a cat")])]])])).2.2.2.2.1
      (JValue.jStr "a cat") rfl).1,
    ((c7_request_shape_and_success "http://localhost:1234" "describe" "data:image/jpeg;base64,x"
        (JValue.jObj [("choices", JValue.jArr
          [JValue.jObj [("message", JValue.jObj
            [("content", JValue.jStr "a cat")])]])])).2.2.2.2.1
      (JValue.jStr "a cat") rfl).2⟩


/-! ## C5: round-trip machinery -/

theorem intPadChars_nonneg (w : ℕ) (n : ℤ) (h : 0 ≤ n) :
    intPadChars w n = padZeros w (natChars n.toNat) := by
  simp [intPadChars, not_lt.mpr h]

set_option maxRecDepth 10000 in
theorem padTwo : ∀ n : ℕ, n < 100 →
    padZeros 2 (natChars n) = [digitChar (n / 10), digitChar (n % 10)] := by decide

set_option maxRecDepth 100000 in
theorem padThree : ∀ n : ℕ, n < 1000 →
    padZeros 3 (natChars n)
      = [digitChar (n / 100), digitChar (n / 10 % 10), digitChar (n % 10)] := by decide

theorem charDigit_digitChar : ∀ d : ℕ, d < 10 → charDigit (digitChar d) = some d := by decide

theorem parseTimeSrt_mk (l : List Char) : parseTimeSrt (String.mk l) = parseChars l := rfl

theorem parseChars_cons (h1 h0 m1 m0 s1 s0 d2 d1 d0 : Char) :
    parseChars [h1, h0, ':', m1, m0, ':', s1, s0, ',', d2, d1, d0]
      = match charDigit h1, charDigit h0, charDigit m1, charDigit m0, charDigit s1,
          charDigit s0, charDigit d2, charDigit d1, charDigit d0 with
        | some a1, some a0, some b1, some b0, some e1, some e0, some f2, some f1, some f0 =>
          some (((10 * a1 + a0 : ℕ) : ℚ) * 3600 + ((10 * b1 + b0 : ℕ) : ℚ) * 60
            + ((10 * e1 + e0 : ℕ) : ℚ) + ((100 * f2 + 10 * f1 + f0 : ℕ) : ℚ) / 1000)
        | _, _, _, _, _, _, _, _, _ => none := rfl

theorem parse_render_nat (h m s ms : ℕ) (hh : h < 100) (hm : m < 60) (hs : s < 60)
    (hms : ms < 1000) :
    parseTimeSrt (String.mk (padZeros 2 (natChars h) ++ ':' :: padZeros 2 (natChars m)
        ++ ':' :: padZeros 2 (natChars s) ++ ',' :: padZeros 3 (natChars ms)))
      = some ((h : ℚ) * 3600 + (m : ℚ) * 60 + (s : ℚ) + (ms : ℚ) / 1000) := by
  rw [parseTimeSrt_mk, padTwo h hh, padTwo m (by omega), padTwo s (by omega), padThree ms hms]
  simp only [List.cons_append, List.nil_append]
  rw [parseChars_cons]
  rw [charDigit_digitChar (h / 10) (by omega), charDigit_digitChar (h % 10) (by omega),
    charDigit_digitChar (m / 10) (by omega), charDigit_digitChar (m % 10) (by omega),
    charDigit_digitChar (s / 10) (by omega), charDigit_digitChar (s % 10) (by omega),
    charDigit_digitChar (ms / 100) (by omega), charDigit_digitChar (ms / 10 % 10) (by omega),
    charDigit_digitChar (ms % 10) (by omega)]
  show some (((10 * (h / 10) + h % 10 : ℕ) : ℚ) * 3600 + ((10 * (m / 10) + m % 10 : ℕ) : ℚ) * 60
    + ((10 * (s / 10) + s % 10 : ℕ) : ℚ)
    + ((100 * (ms / 100) + 10 * (ms / 10 % 10) + ms % 10 : ℕ) : ℚ) / 1000) = _
  rw [show 10 * (h / 10) + h % 10 = h by omega, show 10 * (m / 10) + m % 10 = m by omega,
    show 10 * (s / 10) + s % 10 = s by omega,
    show 100 * (ms / 100) + 10 * (ms / 10 % 10) + ms % 10 = ms by omega]

/-! ## C5: main theorem -/

/-- C5: `generate_srt_content` of an empty track is the empty string; and for
every clock value `0 ≤ t < 100 h`, parsing the `HH:MM:SS,mmm` text produced by
`format_time_srt t` recovers `t` truncated to whole milliseconds — exactly `t`
whenever `t` is a whole number of milliseconds, and within strictly less than
one millisecond in general. -/
theorem c5_serialize_roundtrip :
    CaptionGenerator.generate_srt_content [] = "" ∧
    ∀ t : ℚ, 0 ≤ t → t < 360000 →
      parseTimeSrt (CaptionGenerator.format_time_srt t)
          = some ((⌊(1000 : ℚ) * t⌋ : ℚ) / 1000) ∧
      0 ≤ t - (⌊(1000 : ℚ) * t⌋ : ℚ) / 1000 ∧
      t - (⌊(1000 : ℚ) * t⌋ : ℚ) / 1000 < 1 / 1000 ∧
      (∀ n : ℤ, (n : ℚ) = 1000 * t → (⌊(1000 : ℚ) * t⌋ : ℚ) / 1000 = t) := by
  refine ⟨rfl, ?_⟩
  intro t ht0 htlt
  have hH0 : 0 ≤ ⌊t / 3600⌋ := Int.floor_nonneg.mpr (div_nonneg ht0 (by norm_num))
  have hHlt : ⌊t / 3600⌋ < 100 := by
    rw [Int.floor_lt]
    push_cast
    rw [div_lt_iff₀ (by norm_num : (0 : ℚ) < 3600)]
    linarith
  have hM0 : 0 ≤ ⌊pyMod t 3600 / 60⌋ :=
    Int.floor_nonneg.mpr (div_nonneg (pyMod_nonneg t 3600 (by norm_num)) (by norm_num))
  have hMlt : ⌊pyMod t 3600 / 60⌋ < 60 := by
    rw [Int.floor_lt]
    push_cast
    rw [div_lt_iff₀ (by norm_num : (0 : ℚ) < 60)]
    have := pyMod_lt t 3600 (by norm_num)
    linarith
  have hS0 : 0 ≤ ⌊pyMod t 60⌋ := Int.floor_nonneg.mpr (pyMod_nonneg t 60 (by norm_num))
  have hSlt : ⌊pyMod t 60⌋ < 60 := by
    rw [Int.floor_lt]
    push_cast
    exact pyMod_lt t 60 (by norm_num)
  have hMS0 : 0 ≤ ⌊pyMod t 1 * 1000⌋ :=
    Int.floor_nonneg.mpr (mul_nonneg (pyMod_nonneg t 1 (by norm_num)) (by norm_num))
  have hMSlt : ⌊pyMod t 1 * 1000⌋ < 1000 := by
    rw [Int.floor_lt]
    push_cast
    have := pyMod_lt t 1 (by norm_num)
    nlinarith
  have hfmt : CaptionGenerator.format_time_srt t
      = String.mk (padZeros 2 (natChars (⌊t / 3600⌋).toNat) ++ ':' ::
          padZeros 2 (natChars (⌊pyMod t 3600 / 60⌋).toNat) ++ ':' ::
          padZeros 2 (natChars (⌊pyMod t 60⌋).toNat) ++ ',' ::
          padZeros 3 (natChars (⌊pyMod t 1 * 1000⌋).toNat)) := by
    rw [format_eq_specFloor]
    simp only [specFormatTimeSrtFloor, intPadChars_nonneg _ _ hH0, intPadChars_nonneg _ _ hM0,
      intPadChars_nonneg _ _ hS0, intPadChars_nonneg _ _ hMS0]
  have hparse := parse_render_nat (⌊t / 3600⌋).toNat (⌊pyMod t 3600 / 60⌋).toNat
      (⌊pyMod t 60⌋).toNat (⌊pyMod t 1 * 1000⌋).toNat (by omega) (by omega) (by omega) (by omega)
  have e1 : (((⌊t / 3600⌋).toNat : ℕ) : ℚ) = ((⌊t / 3600⌋ : ℤ) : ℚ) := by
    exact_mod_cast congrArg (fun z : ℤ => (z : ℚ)) (Int.toNat_of_nonneg hH0)
  have e2 : (((⌊pyMod t 3600 / 60⌋).toNat : ℕ) : ℚ) = ((⌊pyMod t 3600 / 60⌋ : ℤ) : ℚ) := by
    exact_mod_cast congrArg (fun z : ℤ => (z : ℚ)) (Int.toNat_of_nonneg hM0)
  have e3 : (((⌊pyMod t 60⌋).toNat : ℕ) : ℚ) = ((⌊pyMod t 60⌋ : ℤ) : ℚ) := by
    exact_mod_cast congrArg (fun z : ℤ => (z : ℚ)) (Int.toNat_of_nonneg hS0)
  have e4 : (((⌊pyMod t 1 * 1000⌋).toNat : ℕ) : ℚ) = ((⌊pyMod t 1 * 1000⌋ : ℤ) : ℚ) := by
    exact_mod_cast congrArg (fun z : ℤ => (z : ℚ)) (Int.toNat_of_nonneg hMS0)
  have hM_eq : ⌊pyMod t 3600 / 60⌋ = ⌊t / 60⌋ - 60 * ⌊t / 3600⌋ := by
    have step : pyMod t 3600 / 60 = t / 60 - ((60 * ⌊t / 3600⌋ : ℤ) : ℚ) := by
      unfold pyMod
      push_cast
      ring
    rw [step, Int.floor_sub_int]
  have hS_eq : ⌊pyMod t 60⌋ = ⌊t⌋ - 60 * ⌊t / 60⌋ := by
    have step : pyMod t 60 = t - ((60 * ⌊t / 60⌋ : ℤ) : ℚ) := by
      unfold pyMod
      push_cast
      ring
    rw [step, Int.floor_sub_int]
  have ht1 : ⌊t / 1⌋ = ⌊t⌋ := by rw [div_one]
  have hMS_eq : ⌊pyMod t 1 * 1000⌋ = ⌊(1000 : ℚ) * t⌋ - 1000 * ⌊t⌋ := by
    have step : pyMod t 1 * 1000 = 1000 * t - ((1000 * ⌊t⌋ : ℤ) : ℚ) := by
      unfold pyMod
      rw [ht1]
      push_cast
      ring
    rw [step, Int.floor_sub_int]
  refine ⟨?_, ?_, ?_, ?_⟩
  · rw [hfmt, hparse, e1, e2, e3, e4, hM_eq, hS_eq, hMS_eq]
    congr 1
    push_cast
    ring
  · have hfl : (⌊(1000 : ℚ) * t⌋ : ℚ) ≤ 1000 * t := Int.floor_le _
    linarith
  · have hfl2 : 1000 * t < (⌊(1000 : ℚ) * t⌋ : ℚ) + 1 := Int.lt_floor_add_one _
    linarith
  · intro n hn
    have hfn : ⌊(1000 : ℚ) * t⌋ = n := by
      rw [← hn, Int.floor_intCast]
    rw [hfn]
    have : (n : ℚ) = 1000 * t := hn
    linarith

/-- Witness for C5 at `t = 131/2` (= 65.5 s). -/
theorem c5_serialize_roundtrip_witness :
    (0 : ℚ) ≤ 131 / 2 ∧ (131 / 2 : ℚ) < 360000 ∧
    parseTimeSrt (CaptionGenerator.format_time_srt (131 / 2))
      = some ((⌊(1000 : ℚ) * (131 / 2)⌋ : ℚ) / 1000) :=
  ⟨by norm_num, by norm_num,
    (c5_serialize_roundtrip.2 (131 / 2) (by norm_num) (by norm_num)).1⟩


/-! ## C8 -/

/-- C8: for every environment (any pattern of capture readiness and inference
latencies), any fuel bound and any start state, the event trace of the
processing loop is accepted by the one-in-flight automaton: a second `send`
never occurs before the previous tick's `display` (and, when applicable,
`caption`) step has completed and the configured sleep has run — each tick
runs capture, send, display, append to completion and only then sleeps, so the
inter-tick delay is measured from the end of one tick's work to the start of
the next. -/
theorem c8_one_inference_in_flight (env : ℕ → TickEnv) (fuel k : ℕ) (st : AppSt) :
    traceOK LoopPhase.idle (VisionApp.processing_loop env fuel k st) := by
  induction fuel generalizing k with
  | zero => exact trivial
  | succ n ih =>
    unfold VisionApp.processing_loop
    cases hp : st.is_processing with
    | false => simp [hp, traceOK]
    | true =>
      simp only [hp, Bool.true_eq_false, if_false]
      unfold VisionApp.send_data
      simp only [hp, Bool.true_eq_false, if_false]
      cases htab : st.current_tab with
      | webcam =>
        cases hf : st.stream && (env k).frame_ready with
        | false =>
          simp only [Bool.false_eq_true, if_false, List.cons_append, List.nil_append]
          simp [traceOK]
          exact ih (k + 1)
        | true =>
          cases hr : st.enable_recording && st.recording_start_time.isSome with
          | false =>
            simp only [Bool.false_eq_true, if_false, List.cons_append, List.nil_append]
            simp [traceOK]
            exact ih (k + 1)
          | true =>
            simp only [Bool.false_eq_true, if_false, List.cons_append, List.nil_append,
              List.append_assoc]
            simp [traceOK]
            exact ih (k + 1)
      | video =>
        cases hf : (env k).frame_ready with
        | false =>
          simp [traceOK]
          exact ih (k + 1)
        | true =>
          simp [traceOK]
          exact ih (k + 1)
      | image =>
        simp [traceOK]
        exact ih (k + 1)

/-! ## C9 -/

/-- C9: switching the active tab always leaves sampling stopped — the stop
(callback to `handle_stop`, wired in `VisionApp.__init__`) runs before the tab
change, the processing task is cancelled whenever it was running, and a tick
executed against the post-switch state does nothing (no capture, no send, no
caption): no tick from the old source's capture path can run after the switch. -/
theorem c9_switch_stops_sampling (st : AppSt) (tab : Tab) (k : ℕ) (env : TickEnv) :
    (TabManager.switch st tab).is_processing = false ∧
    (TabManager.switch st tab).has_task = (!st.is_processing && st.has_task) ∧
    TabManager.switch st tab
      = TabManager.switchTabs (if st.is_processing = true then VisionApp.handle_stop st else st)
          tab ∧
    VisionApp.send_data k env (TabManager.switch st tab) = [] := by
  have hstop_proc : ∀ s : AppSt, (VisionApp.handle_stop s).is_processing = false := by
    intro s
    unfold VisionApp.handle_stop
    cases htab : s.current_tab <;> simp only [htab] <;> split <;> rfl
  have hstop_task : ∀ s : AppSt, (VisionApp.handle_stop s).has_task = false := by
    intro s
    unfold VisionApp.handle_stop
    cases htab : s.current_tab <;> simp only [htab] <;> split <;> rfl
  have htabs_proc : ∀ s : AppSt, (TabManager.switchTabs s tab).is_processing = s.is_processing := by
    intro s
    unfold TabManager.switchTabs
    dsimp only
    split_ifs <;> rfl
  have htabs_task : ∀ s : AppSt, (TabManager.switchTabs s tab).has_task = s.has_task := by
    intro s
    unfold TabManager.switchTabs
    dsimp only
    split_ifs <;> rfl
  have h3 : TabManager.switch st tab
      = TabManager.switchTabs (if st.is_processing = true then VisionApp.handle_stop st else st)
          tab := by
    unfold TabManager.switch
    rfl
  have h1 : (TabManager.switch st tab).is_processing = false := by
    rw [h3, htabs_proc]
    cases hp : st.is_processing with
    | false => simp [hp]
    | true => simp [hp, hstop_proc]
  have h2 : (TabManager.switch st tab).has_task = (!st.is_processing && st.has_task) := by
    rw [h3, htabs_task]
    cases hp : st.is_processing with
    | false => simp [hp]
    | true => simp [hp, hstop_task]
  refine ⟨h1, h2, h3, ?_⟩
  unfold VisionApp.send_data
  simp [h1]

end VisionAI
